import Mathlib

/-!
Verification development for the gitm8 backend.

This file gives a shallow embedding in Lean of the parts of the backend that
the specification talks about:

* `services/github_graphql_service.py` — the profile transformer
  (`transform_to_analytics_format`, `_calculate_expertise`) and the batch
  fetching logic (`fetch_users_batch`, `_fetch_users_batch_light`,
  `_fetch_users_sequential`, `get_users_for_analytics_batch`);
* `services/analytics_service.py` — the `UserProfileAnalyzer` precomputation
  (language totals, top languages, per-user radar ranks, language/topic
  overlap) and `get_radar_chart_data`;
* `services/llm_service.py` — the Gemini retry loop
  (`AsyncGeminiClient.generate`) and the response parser
  (`parse_compatibility_response`).

Python dictionaries are modelled as association lists with insertion-order
semantics (`PyDict`), Python's stable `sorted(..., reverse=True)` as an
insertion sort with a total transitive relation, and network I/O as explicit
environments (oracles) describing the outcome of each upstream request,
together with a log of the requests the code issues.
-/

set_option maxRecDepth 16384

namespace GitM8

/-! ## Python dictionaries as insertion-ordered association lists -/

/-- A Python `dict` with `String` keys: an association list whose key order is
insertion order.  All operations below preserve the Python semantics:
assigning to an existing key keeps its position, assigning to a new key
appends it at the end. -/
abbrev PyDict (α : Type) : Type := List (String × α)

/-- `m[k] = v` on a Python dict: update in place if `k` is present, append
otherwise. -/
def pySet {α : Type} (m : PyDict α) (k : String) (v : α) : PyDict α :=
  match m with
  | [] => [(k, v)]
  | (k', v') :: rest => if k' = k then (k', v) :: rest else (k', v') :: pySet rest k v

/-- `m.get(k)`: first (and, for dicts built by `pySet`, only) binding of `k`. -/
def pyGet? {α : Type} (m : PyDict α) (k : String) : Option α :=
  match m with
  | [] => none
  | (k', v) :: rest => if k' = k then some v else pyGet? rest k

/-- `k in m` for a Python dict. -/
def pyContains {α : Type} (m : PyDict α) (k : String) : Bool :=
  (pyGet? m k).isSome

/-- `m[k] += n` on a `defaultdict(int)` (missing keys behave as `0` and are
appended on first touch). -/
def pyBump (m : PyDict Nat) (k : String) (n : Nat) : PyDict Nat :=
  pySet m k ((pyGet? m k).getD 0 + n)

/-- `dict(pairs)` on a list of pairs: later values win, key order is order of
first occurrence. -/
def pyDictOf {α : Type} (l : List (String × α)) : PyDict α :=
  l.foldl (fun m kv => pySet m kv.1 kv.2) []

theorem pyGet?_pySet {α : Type} (m : PyDict α) (k k' : String) (v : α) :
    pyGet? (pySet m k v) k' = if k' = k then some v else pyGet? m k' := by
  induction m with
  | nil =>
    simp only [pySet, pyGet?]
    by_cases h : k' = k
    · subst h; simp
    · rw [if_neg (Ne.symm h), if_neg h]
  | cons kv rest ih =>
    obtain ⟨k₀, v₀⟩ := kv
    by_cases h0 : k₀ = k
    · subst h0
      by_cases h : k₀ = k'
      · subst h; simp [pySet, pyGet?]
      · simp [pySet, pyGet?, h, Ne.symm h]
    · by_cases h1 : k₀ = k'
      · subst h1
        simp [pySet, pyGet?, h0, Ne.symm h0]
      · simp [pySet, pyGet?, h0, h1, ih]

theorem keys_pySet_of_mem {α : Type} (m : PyDict α) (k : String) (v : α)
    (h : k ∈ m.map Prod.fst) : (pySet m k v).map Prod.fst = m.map Prod.fst := by
  induction m with
  | nil => simp at h
  | cons kv rest ih =>
    obtain ⟨k₀, v₀⟩ := kv
    by_cases h0 : k₀ = k
    · simp [pySet, h0]
    · simp only [List.map_cons, List.mem_cons] at h
      rcases h with h | h
      · exact absurd h.symm h0
      · simp [pySet, h0, ih h]

theorem keys_pySet_of_not_mem {α : Type} (m : PyDict α) (k : String) (v : α)
    (h : k ∉ m.map Prod.fst) :
    (pySet m k v).map Prod.fst = m.map Prod.fst ++ [k] := by
  induction m with
  | nil => simp [pySet]
  | cons kv rest ih =>
    obtain ⟨k₀, v₀⟩ := kv
    simp only [List.map_cons, List.mem_cons] at h
    push_neg at h
    have h0 : ¬ k₀ = k := fun hh => h.1 (hh ▸ rfl)
    simp [pySet, h0, ih h.2]

theorem nodup_keys_pySet {α : Type} (m : PyDict α) (k : String) (v : α)
    (h : (m.map Prod.fst).Nodup) : ((pySet m k v).map Prod.fst).Nodup := by
  by_cases hk : k ∈ m.map Prod.fst
  · rw [keys_pySet_of_mem m k v hk]; exact h
  · rw [keys_pySet_of_not_mem m k v hk]
    simpa using List.Nodup.append h (by simp) (by simpa using hk)

theorem nodup_keys_pyBump (m : PyDict Nat) (k : String) (n : Nat)
    (h : (m.map Prod.fst).Nodup) : ((pyBump m k n).map Prod.fst).Nodup :=
  nodup_keys_pySet m k _ h

/-! ## Python's stable descending sort by value

`sorted(items, key=lambda x: x[1], reverse=True)` is a stable sort that puts
larger second components first and keeps the original order of ties.  An
insertion sort with the relation "my value is at least yours" has exactly
those properties, and since a stable sort's output is uniquely determined by
the comparator, the two agree as functions. -/

/-- The ordering used for value-descending sorts: `a` may come before `b`
iff `b.2 ≤ a.2`. -/
def valGE (a b : String × Nat) : Prop := b.2 ≤ a.2

instance : DecidableRel valGE := fun a b => Nat.decLe b.2 a.2

instance : IsTotal (String × Nat) valGE := ⟨fun a b => Nat.le_total b.2 a.2⟩

instance : IsTrans (String × Nat) valGE :=
  ⟨fun _ _ _ hab hbc => Nat.le_trans hbc hab⟩

/-- Python's `sorted(items, key=lambda x: x[1], reverse=True)`. -/
def pySortValDesc (l : List (String × Nat)) : List (String × Nat) :=
  l.insertionSort valGE

theorem pySortValDesc_perm (l : List (String × Nat)) :
    List.Perm (pySortValDesc l) l :=
  List.perm_insertionSort valGE l

theorem pySortValDesc_sorted (l : List (String × Nat)) :
    (pySortValDesc l).Pairwise valGE :=
  List.sorted_insertionSort valGE l

theorem pySortValDesc_nodup_keys (l : List (String × Nat))
    (h : (l.map Prod.fst).Nodup) : ((pySortValDesc l).map Prod.fst).Nodup :=
  ((pySortValDesc_perm l).map Prod.fst).nodup_iff.mpr h

/-- Python's substring test `needle in hay`. -/
def pyIn (needle hay : String) : Bool :=
  hay.toList.tails.any (fun t => needle.toList.isPrefixOf t)

/-! ## Profile transformer (`transform_to_analytics_format`)

Raw GraphQL user objects are modelled structurally: a field the Python code
reads with `.get(key)` and that GitHub may return as `null` is an `Option`,
counters are `Nat`. -/

/-- One edge of `repository.languages.edges` (`node.name`, `size`). -/
structure LangEdge where
  name : Option String
  size : Nat
deriving Repr, DecidableEq, Inhabited

/-- One node of `repositories.nodes` in the raw GraphQL response. -/
structure RawRepo where
  name : Option String
  description : Option String
  url : Option String
  homepageUrl : Option String
  stargazerCount : Nat
  forkCount : Nat
  isFork : Bool
  isPrivate : Bool
  isArchived : Bool
  isDisabled : Bool
  createdAt : Option String
  updatedAt : Option String
  pushedAt : Option String
  primaryLanguage : Option String
  languages : List LangEdge
deriving Repr, DecidableEq, Inhabited

/-- One node of `starredRepositories.nodes` in the raw GraphQL response. -/
structure RawStar where
  name : Option String
  description : Option String
  url : Option String
  primaryLanguage : Option String
  owner : Option String
deriving Repr, DecidableEq, Inhabited

/-- The `contributionsCollection` counters. -/
structure Contributions where
  totalCommitContributions : Nat
  totalPullRequestContributions : Nat
  totalIssueContributions : Nat
  totalRepositoryContributions : Nat
  totalPullRequestReviewContributions : Nat
  calendarTotal : Nat
deriving Repr, DecidableEq, Inhabited

/-- A raw GraphQL user object (the parts `transform_to_analytics_format`
reads). -/
structure RawUser where
  login : String
  name : Option String
  bio : Option String
  company : Option String
  location : Option String
  email : Option String
  avatarUrl : Option String
  createdAt : Option String
  updatedAt : Option String
  followers : Nat
  following : Nat
  repoTotalCount : Nat
  repos : List RawRepo
  starred : List RawStar
  contributions : Contributions
deriving Repr, DecidableEq, Inhabited

/-- A repository record as built by the transformer's single pass.  The
Python key `private` is a Lean keyword, hence `private_flag`. -/
structure RepoRecord where
  name : Option String
  description : Option String
  url : Option String
  homepage_url : Option String
  fork : Bool
  private_flag : Bool
  archived : Bool
  disabled : Bool
  language : Option String
  stargazers_count : Nat
  forks_count : Nat
  updated_at : Option String
  created_at : Option String
  pushed_at : Option String
deriving Repr, DecidableEq, Inhabited

/-- A starred-repository record in the normalized profile. -/
structure StarRecord where
  name : Option String
  description : Option String
  url : Option String
  language : Option String
  owner : Option String
deriving Repr, DecidableEq, Inhabited

/-- A synthesized pseudo-event of `recent_activity`. -/
structure ActivityRecord where
  type : String
  created_at : Option String
  repo : String
  count : Nat
deriving Repr, DecidableEq, Inhabited

/-- One entry of `primary_expertise`. -/
structure PrimaryExpertise where
  language : String
  level : String
  repos_count : Nat
  complexity_score : Nat
deriving Repr, DecidableEq, Inhabited

/-- The `engagement_patterns` sub-record of the expertise analysis.  Python
float divisions are modelled as exact rationals. -/
structure EngagementPatterns where
  project_initiator_ratio : Rat
  contributor_ratio : Rat
  active_projects : Nat
  recent_activity_score : Rat
deriving Repr, DecidableEq, Inhabited

/-- The result of `_calculate_expertise`. -/
structure ExpertiseAnalysis where
  collaboration_type : String
  activity_consistency : Rat
  primary_expertise : List PrimaryExpertise
  engagement_patterns : EngagementPatterns
deriving Repr, DecidableEq, Inhabited

/-- The `basic_info` mapping of a normalized profile. -/
structure BasicInfo where
  login : String
  name : Option String
  bio : Option String
  company : Option String
  location : Option String
  email : Option String
  avatar_url : Option String
  created_at : Option String
  updated_at : Option String
  public_repos : Nat
  followers : Nat
  following : Nat
  expertise_analysis : ExpertiseAnalysis
deriving Repr, DecidableEq, Inhabited

/-- The normalized per-user analytics record produced by
`transform_to_analytics_format`. -/
structure NormalizedProfile where
  username : String
  avatar_url : String
  basic_info : BasicInfo
  languages : List (String × Nat)
  topics : List (String × Nat)
  starred_repos : List StarRecord
  recent_activity : List ActivityRecord
  repositories : List RepoRecord
deriving Repr, DecidableEq, Inhabited

/-- The fixed keyword set scanned against repository descriptions.  Python
stores it in a `frozenset` whose iteration order is unspecified; the list
order here is the literal's order (none of the verified properties depend on
which keyword of several matches wins). -/
def techKeywords : List String :=
  ["api", "web", "mobile", "ai", "ml", "data", "security", "testing",
   "deployment", "database"]

/-- Accumulator of the transformer's single pass over `repositories.nodes`. -/
structure PassAcc where
  language_bytes : PyDict Nat
  topic_counts : PyDict Nat
  repositories : List RepoRecord
deriving Repr, DecidableEq, Inhabited

/-- One iteration of the transformer's single pass: aggregate the repo's
language sizes, at most one description keyword (first match, then `break`),
the lowercased primary language as a topic, and the repository record. -/
def transformRepoStep (acc : PassAcc) (repo : RawRepo) : PassAcc :=
  let language_bytes :=
    repo.languages.foldl
      (fun m e =>
        match e.name with
        | some n => pyBump m n e.size
        | none => m)
      acc.language_bytes
  let desc := (repo.description.getD "").toLower
  let topic_counts :=
    match techKeywords.find? (fun kw => pyIn kw desc) with
    | some kw => pyBump acc.topic_counts kw 1
    | none => acc.topic_counts
  let topic_counts :=
    match repo.primaryLanguage with
    | some n => pyBump topic_counts n.toLower 1
    | none => topic_counts
  let record : RepoRecord :=
    { name := repo.name
      description := repo.description
      url := repo.url
      homepage_url := repo.homepageUrl
      fork := repo.isFork
      private_flag := repo.isPrivate
      archived := repo.isArchived
      disabled := repo.isDisabled
      language := repo.primaryLanguage
      stargazers_count := repo.stargazerCount
      forks_count := repo.forkCount
      updated_at := repo.updatedAt
      created_at := repo.createdAt
      pushed_at := repo.pushedAt }
  { language_bytes := language_bytes
    topic_counts := topic_counts
    repositories := acc.repositories ++ [record] }

/-- `_calculate_expertise(repositories, languages, contributions)`. -/
def calculate_expertise (repositories : List RepoRecord)
    (languages : List (String × Nat)) (contributions : Contributions) :
    ExpertiseAnalysis :=
  let total_repos := repositories.length
  let forked_repos := (repositories.filter (fun r => r.fork)).length
  let active_projects :=
    (repositories.filter (fun r => !r.archived && !r.disabled)).length
  let lang_repo_counts :=
    repositories.foldl
      (fun m r =>
        match r.language with
        | some lang => pyBump m lang 1
        | none => m)
      ([] : PyDict Nat)
  let original_repos := total_repos - forked_repos
  let primary_expertise :=
    (languages.take 5).map (fun lb =>
      let repos_count := (pyGet? lang_repo_counts lb.1).getD 0
      let score := min 10 (repos_count * 2 + lb.2 / 1000000)
      let level :=
        if score > 8 then "Expert"
        else if score > 5 then "Advanced"
        else "Intermediate"
      ({ language := lb.1, level := level, repos_count := repos_count
         complexity_score := score } : PrimaryExpertise))
  let collaboration_type :=
    if original_repos > forked_repos * 2 then "Project Initiator"
    else if forked_repos > original_repos * 2 then "Contributor-Focused"
    else "Balanced"
  let total_contribs :=
    contributions.totalCommitContributions +
      contributions.totalPullRequestContributions +
      contributions.totalIssueContributions
  { collaboration_type := collaboration_type
    activity_consistency := (total_contribs : Rat) / (max 1 total_repos : Nat)
    primary_expertise := primary_expertise
    engagement_patterns :=
      { project_initiator_ratio := (original_repos : Rat) / (max 1 total_repos : Nat)
        contributor_ratio := (forked_repos : Rat) / (max 1 total_repos : Nat)
        active_projects := active_projects
        recent_activity_score := min 10 ((total_contribs : Rat) / 10) } }

/-- The `(field, event_type, label)` table the transformer uses to synthesize
`recent_activity`, paired with the counter values of a given user. -/
def contributionCounters (c : Contributions) : List (Nat × String × String) :=
  [(c.totalCommitContributions, "PushEvent", "commits"),
   (c.totalPullRequestContributions, "PullRequestEvent", "pull requests"),
   (c.totalIssueContributions, "IssuesEvent", "issues"),
   (c.totalRepositoryContributions, "CreateEvent", "repositories"),
   (c.totalPullRequestReviewContributions, "PullRequestReviewEvent", "PR reviews")]

/-- The activity record appended for one positive counter of the table:
`{"type": event_type, "created_at": updatedAt, "repo": f"{count} {label}",
"count": count}`. -/
def mkActivityRecord (u : RawUser) (c : Nat × String × String) :
    ActivityRecord :=
  { type := c.2.1, created_at := u.updatedAt
    repo := toString c.1 ++ " " ++ c.2.2, count := c.1 }

/-- The `recent_activity` synthesis loop over a counter table: a counter
`> 0` yields exactly one record carrying the counter, a zero counter yields
none. -/
def synthFold (u : RawUser) (l : List (Nat × String × String)) :
    List ActivityRecord :=
  l.foldr (fun c acc => if 0 < c.1 then mkActivityRecord u c :: acc else acc) []

/-- `recent_activity` as synthesized by `transform_to_analytics_format`. -/
def synthRecentActivity (u : RawUser) : List ActivityRecord :=
  synthFold u (contributionCounters u.contributions)

/-- `transform_to_analytics_format(user_data)`. -/
def transform_to_analytics_format (u : RawUser) : NormalizedProfile :=
  let acc := u.repos.foldl transformRepoStep ⟨[], [], []⟩
  let languages := pySortValDesc acc.language_bytes
  let topics := pySortValDesc acc.topic_counts
  let starred_repos :=
    u.starred.map (fun r =>
      ({ name := r.name, description := r.description, url := r.url
         language := r.primaryLanguage, owner := r.owner } : StarRecord))
  let recent_activity := synthRecentActivity u
  let expertise := calculate_expertise acc.repositories languages u.contributions
  { username := u.login
    avatar_url := (u.avatarUrl.getD "")
    basic_info :=
      { login := u.login
        name := u.name
        bio := u.bio
        company := u.company
        location := u.location
        email := u.email
        avatar_url := u.avatarUrl
        created_at := u.createdAt
        updated_at := u.updatedAt
        public_repos := u.repoTotalCount
        followers := u.followers
        following := u.following
        expertise_analysis := expertise }
    languages := languages
    topics := topics
    starred_repos := starred_repos
    recent_activity := recent_activity
    repositories := acc.repositories }

theorem transform_recent_activity_eq (u : RawUser) :
    (transform_to_analytics_format u).recent_activity = synthRecentActivity u :=
  rfl

theorem mem_synthFold {u : RawUser} {l : List (Nat × String × String)}
    {rec : ActivityRecord} :
    rec ∈ synthFold u l ↔ ∃ c, c ∈ l ∧ 0 < c.1 ∧ rec = mkActivityRecord u c := by
  induction l with
  | nil => simp [synthFold]
  | cons c rest ih =>
    simp only [synthFold, List.foldr_cons]
    by_cases h : 0 < c.1
    · rw [if_pos h]
      constructor
      · intro hm
        rcases List.mem_cons.mp hm with hm | hm
        · exact ⟨c, List.mem_cons_self c rest, h, hm⟩
        · obtain ⟨c', hc', hpos, hrec⟩ := ih.mp hm
          exact ⟨c', List.mem_cons_of_mem c hc', hpos, hrec⟩
      · rintro ⟨c', hc', hpos, hrec⟩
        rcases List.mem_cons.mp hc' with hc' | hc'
        · subst hc'; exact hrec ▸ List.mem_cons_self _ _
        · exact List.mem_cons_of_mem _ (ih.mpr ⟨c', hc', hpos, hrec⟩)
    · rw [if_neg h]
      constructor
      · intro hm
        obtain ⟨c', hc', hpos, hrec⟩ := ih.mp hm
        exact ⟨c', List.mem_cons_of_mem c hc', hpos, hrec⟩
      · rintro ⟨c', hc', hpos, hrec⟩
        rcases List.mem_cons.mp hc' with hc' | hc'
        · subst hc'; exact absurd hpos h
        · exact ih.mpr ⟨c', hc', hpos, hrec⟩

theorem mkActivityRecord_type (u : RawUser) (c : Nat × String × String) :
    (mkActivityRecord u c).type = c.2.1 := rfl

theorem mkActivityRecord_count (u : RawUser) (c : Nat × String × String) :
    (mkActivityRecord u c).count = c.1 := rfl

theorem synthFold_cons (u : RawUser) (c : Nat × String × String)
    (rest : List (Nat × String × String)) :
    synthFold u (c :: rest)
      = if 0 < c.1 then mkActivityRecord u c :: synthFold u rest
        else synthFold u rest := rfl

theorem length_filter_synthFold (u : RawUser)
    (l : List (Nat × String × String)) (t : String) :
    ((synthFold u l).filter (fun rec => rec.type = t)).length
      = (l.filter (fun c => decide (0 < c.1) && decide (c.2.1 = t))).length := by
  induction l with
  | nil => simp [synthFold]
  | cons c rest ih =>
    rw [synthFold_cons]
    by_cases h : 0 < c.1
    · rw [if_pos h, List.filter_cons, List.filter_cons]
      by_cases ht : c.2.1 = t
      · simp [mkActivityRecord_type, ht, h, ih]
      · simp [mkActivityRecord_type, ht, h, ih]
    · rw [List.filter_cons, if_neg h]
      simp [h, ih]

theorem nodup_keys_edge_fold (edges : List LangEdge) (m : PyDict Nat)
    (h : (m.map Prod.fst).Nodup) :
    ((edges.foldl
        (fun m e =>
          match e.name with
          | some n => pyBump m n e.size
          | none => m)
        m).map Prod.fst).Nodup := by
  induction edges generalizing m with
  | nil => simpa using h
  | cons e rest ih =>
    simp only [List.foldl_cons]
    cases e.name with
    | none => exact ih m h
    | some n => exact ih _ (nodup_keys_pyBump m n e.size h)

theorem nodup_keys_transformRepoStep (acc : PassAcc) (repo : RawRepo)
    (h1 : (acc.language_bytes.map Prod.fst).Nodup)
    (h2 : (acc.topic_counts.map Prod.fst).Nodup) :
    ((transformRepoStep acc repo).language_bytes.map Prod.fst).Nodup ∧
      ((transformRepoStep acc repo).topic_counts.map Prod.fst).Nodup := by
  refine ⟨nodup_keys_edge_fold repo.languages acc.language_bytes h1, ?_⟩
  rcases hf : techKeywords.find? (fun kw =>
      pyIn kw ((repo.description.getD "").toLower)) with _ | kw <;>
    rcases hp : repo.primaryLanguage with _ | n <;>
      simp only [transformRepoStep, hf, hp] <;>
        first
          | exact h2
          | exact nodup_keys_pyBump _ _ _ h2
          | exact nodup_keys_pyBump _ _ _ (nodup_keys_pyBump _ _ _ h2)

theorem nodup_keys_pass (repos : List RawRepo) (acc : PassAcc)
    (h1 : (acc.language_bytes.map Prod.fst).Nodup)
    (h2 : (acc.topic_counts.map Prod.fst).Nodup) :
    (((repos.foldl transformRepoStep acc).language_bytes.map Prod.fst).Nodup) ∧
      (((repos.foldl transformRepoStep acc).topic_counts.map Prod.fst).Nodup) := by
  induction repos generalizing acc with
  | nil => exact ⟨h1, h2⟩
  | cons repo rest ih =>
    have hstep := nodup_keys_transformRepoStep acc repo h1 h2
    exact ih _ hstep.1 hstep.2

/-- C6: for every raw user object, the normalized profile produced by
`transform_to_analytics_format` has `languages` sorted descending by
aggregated byte total with no duplicate language names, and `topics` sorted
descending by occurrence count with no duplicate topic keys. -/
theorem transform_languages_topics_sorted_nodup (u : RawUser) :
    ((transform_to_analytics_format u).languages.Pairwise
        (fun a b => b.2 ≤ a.2) ∧
      ((transform_to_analytics_format u).languages.map Prod.fst).Nodup) ∧
    ((transform_to_analytics_format u).topics.Pairwise
        (fun a b => b.2 ≤ a.2) ∧
      ((transform_to_analytics_format u).topics.map Prod.fst).Nodup) := by
  have hpass := nodup_keys_pass u.repos ⟨[], [], []⟩ (by simp) (by simp)
  have hl : (transform_to_analytics_format u).languages
      = pySortValDesc
          (u.repos.foldl transformRepoStep ⟨[], [], []⟩).language_bytes := rfl
  have ht : (transform_to_analytics_format u).topics
      = pySortValDesc
          (u.repos.foldl transformRepoStep ⟨[], [], []⟩).topic_counts := rfl
  rw [hl, ht]
  exact ⟨⟨pySortValDesc_sorted _, pySortValDesc_nodup_keys _ hpass.1⟩,
    ⟨pySortValDesc_sorted _, pySortValDesc_nodup_keys _ hpass.2⟩⟩

/-- C7: `recent_activity` is synthesized from the five contribution counters:
every record's `count` is at least 1 and its `type` belongs to the fixed
enumeration; for each counter of the table, a positive counter yields exactly
one record of the corresponding type carrying the counter as `count`, and a
zero counter yields no such record. -/
theorem transform_recent_activity_spec (u : RawUser) :
    (∀ rec ∈ (transform_to_analytics_format u).recent_activity,
        1 ≤ rec.count ∧
          rec.type ∈ ["PushEvent", "PullRequestEvent", "IssuesEvent",
            "CreateEvent", "PullRequestReviewEvent"]) ∧
    (∀ c ∈ contributionCounters u.contributions,
        (((transform_to_analytics_format u).recent_activity.filter
              (fun rec => rec.type = c.2.1)).length
            = if 0 < c.1 then 1 else 0) ∧
          ∀ rec ∈ (transform_to_analytics_format u).recent_activity,
            rec.type = c.2.1 → rec.count = c.1) := by
  rw [transform_recent_activity_eq]
  constructor
  · intro rec hrec
    obtain ⟨c, hc, hpos, hrec⟩ := mem_synthFold.mp hrec
    subst hrec
    refine ⟨hpos, ?_⟩
    simp only [contributionCounters, List.mem_cons, List.not_mem_nil,
      or_false] at hc
    rcases hc with h | h | h | h | h <;> subst h <;> simp [mkActivityRecord]
  · intro c hc
    constructor
    · rw [synthRecentActivity, length_filter_synthFold]
      simp only [contributionCounters, List.mem_cons, List.not_mem_nil,
        or_false] at hc
      rcases hc with h | h | h | h | h <;> subst h <;>
        simp [contributionCounters, List.filter_cons] <;>
          split_ifs <;> simp_all
    · intro rec hrec htype
      obtain ⟨c', hc', hpos, hrec⟩ := mem_synthFold.mp hrec
      subst hrec
      simp only [mkActivityRecord] at htype ⊢
      simp only [contributionCounters, List.mem_cons, List.not_mem_nil,
        or_false] at hc hc'
      rcases hc with h | h | h | h | h <;> subst h <;>
        rcases hc' with h' | h' | h' | h' | h' <;> subst h' <;>
          first
            | rfl
            | exact absurd htype (by simp)

/-- A concrete raw user used to instantiate theorems with hypotheses. -/
def sampleRawUser : RawUser :=
  { login := "alice"
    name := some "Alice"
    bio := none
    company := none
    location := none
    email := none
    avatarUrl := some "https://example.test/a.png"
    createdAt := some "2020-01-01T00:00:00Z"
    updatedAt := some "2024-01-01T00:00:00Z"
    followers := 3
    following := 1
    repoTotalCount := 2
    repos :=
      [{ name := some "tool"
         description := some "A web API helper"
         url := none
         homepageUrl := none
         stargazerCount := 4
         forkCount := 1
         isFork := false
         isPrivate := false
         isArchived := false
         isDisabled := false
         createdAt := none
         updatedAt := none
         pushedAt := none
         primaryLanguage := some "Python"
         languages := [⟨some "Python", 1500⟩, ⟨some "Shell", 200⟩] },
       { name := some "site"
         description := none
         url := none
         homepageUrl := none
         stargazerCount := 0
         forkCount := 0
         isFork := true
         isPrivate := false
         isArchived := false
         isDisabled := false
         createdAt := none
         updatedAt := none
         pushedAt := none
         primaryLanguage := some "TypeScript"
         languages := [⟨some "TypeScript", 900⟩, ⟨some "Python", 100⟩] }]
    starred := []
    contributions :=
      { totalCommitContributions := 5
        totalPullRequestContributions := 0
        totalIssueContributions := 2
        totalRepositoryContributions := 1
        totalPullRequestReviewContributions := 0
        calendarTotal := 8 } }

/-- Witness for the `recent_activity` synthesis property: at `sampleRawUser`
(counters 5, 0, 2, 1, 0) the synthesized records are exactly the three
positive counters, and the property instantiates there. -/
theorem transform_recent_activity_spec_witness :
    ((transform_to_analytics_format sampleRawUser).recent_activity
        = [⟨"PushEvent", some "2024-01-01T00:00:00Z", "5 commits", 5⟩,
           ⟨"IssuesEvent", some "2024-01-01T00:00:00Z", "2 issues", 2⟩,
           ⟨"CreateEvent", some "2024-01-01T00:00:00Z", "1 repositories", 1⟩]) ∧
    ((∀ rec ∈ (transform_to_analytics_format sampleRawUser).recent_activity,
        1 ≤ rec.count ∧
          rec.type ∈ ["PushEvent", "PullRequestEvent", "IssuesEvent",
            "CreateEvent", "PullRequestReviewEvent"]) ∧
      (∀ c ∈ contributionCounters sampleRawUser.contributions,
          (((transform_to_analytics_format sampleRawUser).recent_activity.filter
                (fun rec => rec.type = c.2.1)).length
              = if 0 < c.1 then 1 else 0) ∧
            ∀ rec ∈ (transform_to_analytics_format sampleRawUser).recent_activity,
              rec.type = c.2.1 → rec.count = c.1)) :=
  ⟨by decide, transform_recent_activity_spec sampleRawUser⟩

/-! ## Compatibility analyzer (`UserProfileAnalyzer._precompute`)

The analyzer's cached fields are embedded as functions of the profile list.
Only the language/topic slice of `UserProfile` is read by the computations
the claims are about. -/

/-- The slice of `models.UserProfile` that the analyzer's language/topic
precomputation reads: `username`, `languages` and `topics` as lists of
pairs. -/
structure AProfile where
  username : String
  languages : List (String × Nat)
  topics : List (String × Nat)
deriving Repr, DecidableEq, Inhabited

/-- `self._user_languages[username] = dict(profile.languages)`. -/
def userLanguages (p : AProfile) : PyDict Nat := pyDictOf p.languages

/-- `self._user_topics[username] = dict(profile.topics)`. -/
def userTopics (p : AProfile) : PyDict Nat := pyDictOf p.topics

/-- `self._language_totals[lang] = self._language_totals.get(lang, 0) + count`
accumulated over all profiles in supplied order. -/
def languageTotals (ps : List AProfile) : PyDict Nat :=
  ps.foldl
    (fun m p => (userLanguages p).foldl (fun m lc => pyBump m lc.1 lc.2) m)
    []

/-- `lang_user_count[lang] += 1` accumulated over all profiles (the
`defaultdict(int)` tracking how many users have each language). -/
def langUserCount (ps : List AProfile) : PyDict Nat :=
  ps.foldl
    (fun m p => (userLanguages p).foldl (fun m lc => pyBump m lc.1 1) m)
    []

/-- `topic_user_count[topic] += 1` accumulated over all profiles. -/
def topicUserCount (ps : List AProfile) : PyDict Nat :=
  ps.foldl
    (fun m p => (userTopics p).foldl (fun m tc => pyBump m tc.1 1) m)
    []

/-- `sorted(self._language_totals.items(), key=lambda x: x[1], reverse=True)`. -/
def sortedLangTotals (ps : List AProfile) : List (String × Nat) :=
  pySortValDesc (languageTotals ps)

/-- `self._top_languages = [lang for lang, _ in sorted_langs[:10]]`. -/
def topLanguages (ps : List AProfile) : List String :=
  ((sortedLangTotals ps).take 10).map Prod.fst

/-- `user_top`: the user's languages restricted to the top set, sorted by
byte count descending (stable). -/
def userTop (p : AProfile) (top : List String) : List (String × Nat) :=
  pySortValDesc ((userLanguages p).filter (fun lc => top.contains lc.1))

/-- `self._user_language_ranks[username] =
{lang: rank_count - idx for idx, (lang, _) in enumerate(user_top)}`. -/
def userLanguageRanks (p : AProfile) (top : List String) : PyDict Nat :=
  let ut := userTop p top
  pyDictOf (ut.enum.map (fun iv => (iv.2.1, ut.length - iv.1)))

/-- `self._user_language_ranks.get(username, {}).get(lang, 0)` for one
profile. -/
def getRank (p : AProfile) (top : List String) (lang : String) : Nat :=
  (pyGet? (userLanguageRanks p top) lang).getD 0

/-- One entry of the radar data: the dict mapping each username to its rank
for `lang` (built by successive dict assignment over the profiles). -/
def radarEntry (ps : List AProfile) (lang : String) : PyDict Nat :=
  pyDictOf (ps.map (fun p => (p.username, getRank p (topLanguages ps) lang)))

/-- `get_radar_chart_data`: one entry per top language, in global-total
descending order. -/
def get_radar_chart_data (ps : List AProfile) :
    List (String × PyDict Nat) :=
  (topLanguages ps).map (fun lang => (lang, radarEntry ps lang))

/-- `self._language_overlap = {lang: count for lang, count in
lang_user_count.items() if count > 1}`. -/
def language_overlap (ps : List AProfile) : PyDict Nat :=
  (langUserCount ps).filter (fun lc => 1 < lc.2)

/-- `self._common_languages = list(self._language_overlap.keys())`. -/
def common_languages (ps : List AProfile) : List String :=
  (language_overlap ps).map Prod.fst

/-- `self._topic_overlap = {topic: count for topic, count in
topic_user_count.items() if count > 1}`. -/
def topic_overlap (ps : List AProfile) : PyDict Nat :=
  (topicUserCount ps).filter (fun tc => 1 < tc.2)

/-- `self._common_topics = list(self._topic_overlap.keys())`. -/
def common_topics (ps : List AProfile) : List String :=
  (topic_overlap ps).map Prod.fst

/-! ### Association-list lemmas for the analyzer proofs -/

theorem pyGet?_eq_none_iff {α : Type} (m : PyDict α) (k : String) :
    pyGet? m k = none ↔ k ∉ m.map Prod.fst := by
  induction m with
  | nil => simp [pyGet?]
  | cons kv rest ih =>
    obtain ⟨k₀, v₀⟩ := kv
    by_cases h : k₀ = k
    · subst h; simp [pyGet?]
    · simp [pyGet?, h, ih, Ne.symm h]

theorem pyContains_iff {α : Type} (m : PyDict α) (k : String) :
    pyContains m k = true ↔ k ∈ m.map Prod.fst := by
  rw [pyContains, Option.isSome_iff_ne_none]
  constructor
  · intro h
    by_contra hmem
    exact h ((pyGet?_eq_none_iff m k).mpr hmem)
  · intro h hnone
    exact absurd ((pyGet?_eq_none_iff m k).mp hnone) (by simpa using h)

theorem getD_pyBump (m : PyDict Nat) (k k' : String) (n : Nat) :
    (pyGet? (pyBump m k n) k').getD 0
      = (pyGet? m k').getD 0 + (if k' = k then n else 0) := by
  rw [pyBump, pyGet?_pySet]
  by_cases h : k' = k
  · subst h; simp
  · simp [h]

theorem mem_keys_pyBump (m : PyDict Nat) (k k' : String) (n : Nat) :
    k' ∈ (pyBump m k n).map Prod.fst ↔ k' ∈ m.map Prod.fst ∨ k' = k := by
  by_cases h : k ∈ m.map Prod.fst
  · rw [pyBump, keys_pySet_of_mem m k _ h]
    constructor
    · exact Or.inl
    · rintro (hm | he)
      · exact hm
      · exact he ▸ h
  · rw [pyBump, keys_pySet_of_not_mem m k _ h]
    simp

theorem getD_bumpFold (q : List (String × Nat)) (m : PyDict Nat) (k : String) :
    (pyGet? (q.foldl (fun m lc => pyBump m lc.1 1) m) k).getD 0
      = (pyGet? m k).getD 0 + q.countP (fun lc => lc.1 = k) := by
  induction q generalizing m with
  | nil => simp
  | cons lc rest ih =>
    rw [List.foldl_cons, ih, getD_pyBump]
    by_cases h : k = lc.1
    · simp [List.countP_cons, h]
      omega
    · have h' : ¬ lc.1 = k := fun hh => h hh.symm
      simp [List.countP_cons, h, h']

theorem nodup_keys_bumpFold (q : List (String × Nat)) (m : PyDict Nat)
    (h : (m.map Prod.fst).Nodup) :
    (((q.foldl (fun m lc => pyBump m lc.1 1) m)).map Prod.fst).Nodup := by
  induction q generalizing m with
  | nil => exact h
  | cons lc rest ih => exact ih _ (nodup_keys_pyBump m lc.1 1 h)

theorem countP_eq_ite_of_nodup_keys (q : List (String × Nat)) (k : String)
    (h : (q.map Prod.fst).Nodup) :
    q.countP (fun lc => lc.1 = k) = if k ∈ q.map Prod.fst then 1 else 0 := by
  induction q with
  | nil => simp
  | cons lc rest ih =>
    simp only [List.map_cons, List.nodup_cons] at h
    rw [List.countP_cons]
    by_cases he : lc.1 = k
    · subst he
      have : lc.1 ∉ rest.map Prod.fst := h.1
      rw [ih h.2, if_neg this]
      simp
    · rw [ih h.2]
      have : (k ∈ lc.1 :: rest.map Prod.fst) ↔ k ∈ rest.map Prod.fst := by
        simp [Ne.symm he]
      simp only [List.map_cons]
      rw [if_congr this rfl rfl]
      simp [he]

theorem nodup_keys_pyDictFold {α : Type} (l : List (String × α)) (m : PyDict α)
    (h : (m.map Prod.fst).Nodup) :
    ((l.foldl (fun m kv => pySet m kv.1 kv.2) m).map Prod.fst).Nodup := by
  induction l generalizing m with
  | nil => exact h
  | cons kv rest ih => exact ih _ (nodup_keys_pySet m kv.1 kv.2 h)

theorem nodup_keys_pyDictOf {α : Type} (l : List (String × α)) :
    ((pyDictOf l).map Prod.fst).Nodup :=
  nodup_keys_pyDictFold l [] (by simp)

theorem mem_keys_pyDictFold {α : Type} (l : List (String × α)) (m : PyDict α)
    (k : String) :
    k ∈ (l.foldl (fun m kv => pySet m kv.1 kv.2) m).map Prod.fst
      ↔ k ∈ m.map Prod.fst ∨ k ∈ l.map Prod.fst := by
  induction l generalizing m with
  | nil => simp
  | cons kv rest ih =>
    rw [List.foldl_cons, ih]
    by_cases h : kv.1 ∈ m.map Prod.fst
    · rw [keys_pySet_of_mem m kv.1 kv.2 h]
      constructor
      · rintro (hm | hr)
        · exact Or.inl hm
        · exact Or.inr (List.mem_cons_of_mem _ hr)
      · rintro (hm | hr)
        · exact Or.inl hm
        · rcases List.mem_cons.mp hr with he | hr
          · exact Or.inl (he ▸ h)
          · exact Or.inr hr
    · rw [keys_pySet_of_not_mem m kv.1 kv.2 h]
      simp only [List.mem_append, List.mem_singleton, List.map_cons,
        List.mem_cons]
      tauto

theorem mem_keys_pyDictOf {α : Type} (l : List (String × α)) (k : String) :
    k ∈ (pyDictOf l).map Prod.fst ↔ k ∈ l.map Prod.fst := by
  rw [pyDictOf, mem_keys_pyDictFold]
  simp

theorem getD_countFold (qs : List (PyDict Nat)) (m : PyDict Nat) (L : String)
    (hq : ∀ q ∈ qs, (q.map Prod.fst).Nodup) :
    (pyGet?
        (qs.foldl (fun m q => q.foldl (fun m lc => pyBump m lc.1 1) m) m)
        L).getD 0
      = (pyGet? m L).getD 0 + qs.countP (fun q => pyContains q L) := by
  induction qs generalizing m with
  | nil => simp
  | cons q rest ih =>
    rw [List.foldl_cons, ih _ (fun q' hq' => hq q' (List.mem_cons_of_mem q hq')),
      getD_bumpFold, countP_eq_ite_of_nodup_keys _ L (hq q (List.mem_cons_self q rest)),
      List.countP_cons]
    by_cases h : L ∈ q.map Prod.fst
    · have : pyContains q L = true := (pyContains_iff q L).mpr h
      simp [h, this]
      omega
    · have : ¬ pyContains q L = true := fun hc => h ((pyContains_iff q L).mp hc)
      simp [h, this]

theorem mem_keys_countFold (qs : List (PyDict Nat)) (m : PyDict Nat)
    (L : String) :
    L ∈ ((qs.foldl (fun m q => q.foldl (fun m lc => pyBump m lc.1 1) m) m).map
        Prod.fst)
      ↔ L ∈ m.map Prod.fst ∨ ∃ q ∈ qs, L ∈ q.map Prod.fst := by
  induction qs generalizing m with
  | nil => simp
  | cons q rest ih =>
    rw [List.foldl_cons, ih]
    have hinner : ∀ m' : PyDict Nat,
        L ∈ ((q.foldl (fun m lc => pyBump m lc.1 1) m').map Prod.fst)
          ↔ L ∈ m'.map Prod.fst ∨ L ∈ q.map Prod.fst := by
      intro m'
      induction q generalizing m' with
      | nil => simp
      | cons lc rest' ih' =>
        rw [List.foldl_cons, ih', mem_keys_pyBump]
        simp only [List.map_cons, List.mem_cons]
        tauto
    rw [hinner]
    constructor
    · rintro ((hm | hq) | hr)
      · exact Or.inl hm
      · exact Or.inr ⟨q, List.mem_cons_self q rest, hq⟩
      · obtain ⟨q', hq', hL⟩ := hr
        exact Or.inr ⟨q', List.mem_cons_of_mem q hq', hL⟩
    · rintro (hm | ⟨q', hq', hL⟩)
      · exact Or.inl (Or.inl hm)
      · rcases List.mem_cons.mp hq' with he | hq'
        · exact Or.inl (Or.inr (he ▸ hL))
        · exact Or.inr ⟨q', hq', hL⟩

theorem nodup_keys_countFold (qs : List (PyDict Nat)) (m : PyDict Nat)
    (h : (m.map Prod.fst).Nodup) :
    (((qs.foldl (fun m q => q.foldl (fun m lc => pyBump m lc.1 1) m) m)).map
        Prod.fst).Nodup := by
  induction qs generalizing m with
  | nil => exact h
  | cons q rest ih => exact ih _ (nodup_keys_bumpFold q m h)

/-- The number of users whose language distribution contains `L`. -/
def nUsersWithLang (ps : List AProfile) (L : String) : Nat :=
  (ps.filter (fun p => pyContains (userLanguages p) L)).length

/-- The number of users whose topic distribution contains `T`. -/
def nUsersWithTopic (ps : List AProfile) (T : String) : Nat :=
  (ps.filter (fun p => pyContains (userTopics p) T)).length

theorem langUserCount_eq_fold (ps : List AProfile) :
    langUserCount ps
      = (ps.map userLanguages).foldl
          (fun m q => q.foldl (fun m lc => pyBump m lc.1 1) m) [] := by
  rw [langUserCount, List.foldl_map]

theorem topicUserCount_eq_fold (ps : List AProfile) :
    topicUserCount ps
      = (ps.map userTopics).foldl
          (fun m q => q.foldl (fun m lc => pyBump m lc.1 1) m) [] := by
  rw [topicUserCount, List.foldl_map]

theorem pyGet?_langUserCount (ps : List AProfile) (L : String) :
    pyGet? (langUserCount ps) L
      = if 0 < nUsersWithLang ps L then some (nUsersWithLang ps L) else none := by
  have hgetD : (pyGet? (langUserCount ps) L).getD 0 = nUsersWithLang ps L := by
    rw [langUserCount_eq_fold,
      getD_countFold _ _ _ (by
        intro q hq
        obtain ⟨p, _, hpq⟩ := List.mem_map.mp hq
        exact hpq ▸ nodup_keys_pyDictOf p.languages)]
    rw [List.countP_map, nUsersWithLang, ← List.countP_eq_length_filter]
    simp [pyGet?, Function.comp_def]
  have hmem : L ∈ (langUserCount ps).map Prod.fst ↔ 0 < nUsersWithLang ps L := by
    rw [langUserCount_eq_fold, mem_keys_countFold]
    simp only [List.map_nil, List.not_mem_nil, false_or]
    rw [nUsersWithLang, ← List.countP_eq_length_filter, List.countP_pos_iff]
    constructor
    · rintro ⟨q, hq, hL⟩
      obtain ⟨p, hp, hpq⟩ := List.mem_map.mp hq
      exact ⟨p, hp, by rw [pyContains_iff]; exact hpq ▸ hL⟩
    · rintro ⟨p, hp, hL⟩
      exact ⟨userLanguages p, List.mem_map_of_mem userLanguages hp,
        (pyContains_iff _ _).mp (by simpa using hL)⟩
  by_cases h : 0 < nUsersWithLang ps L
  · rw [if_pos h]
    have hsome : (pyGet? (langUserCount ps) L).isSome := by
      rw [Option.isSome_iff_ne_none]
      intro hnone
      exact absurd (hmem.mpr h) ((pyGet?_eq_none_iff _ _).mp hnone)
    obtain ⟨v, hv⟩ := Option.isSome_iff_exists.mp hsome
    rw [hv] at hgetD ⊢
    simp at hgetD
    rw [hgetD]
  · rw [if_neg h]
    rw [pyGet?_eq_none_iff]
    intro hmm2
    exact h (hmem.mp hmm2)

theorem pyGet?_topicUserCount (ps : List AProfile) (T : String) :
    pyGet? (topicUserCount ps) T
      = if 0 < nUsersWithTopic ps T then some (nUsersWithTopic ps T)
        else none := by
  have hgetD : (pyGet? (topicUserCount ps) T).getD 0 = nUsersWithTopic ps T := by
    rw [topicUserCount_eq_fold,
      getD_countFold _ _ _ (by
        intro q hq
        obtain ⟨p, _, hpq⟩ := List.mem_map.mp hq
        exact hpq ▸ nodup_keys_pyDictOf p.topics)]
    rw [List.countP_map, nUsersWithTopic, ← List.countP_eq_length_filter]
    simp [pyGet?, Function.comp_def]
  have hmem : T ∈ (topicUserCount ps).map Prod.fst ↔ 0 < nUsersWithTopic ps T := by
    rw [topicUserCount_eq_fold, mem_keys_countFold]
    simp only [List.map_nil, List.not_mem_nil, false_or]
    rw [nUsersWithTopic, ← List.countP_eq_length_filter, List.countP_pos_iff]
    constructor
    · rintro ⟨q, hq, hT⟩
      obtain ⟨p, hp, hpq⟩ := List.mem_map.mp hq
      exact ⟨p, hp, by rw [pyContains_iff]; exact hpq ▸ hT⟩
    · rintro ⟨p, hp, hT⟩
      exact ⟨userTopics p, List.mem_map_of_mem userTopics hp,
        (pyContains_iff _ _).mp (by simpa using hT)⟩
  by_cases h : 0 < nUsersWithTopic ps T
  · rw [if_pos h]
    have hsome : (pyGet? (topicUserCount ps) T).isSome := by
      rw [Option.isSome_iff_ne_none]
      intro hnone
      exact absurd (hmem.mpr h) ((pyGet?_eq_none_iff _ _).mp hnone)
    obtain ⟨v, hv⟩ := Option.isSome_iff_exists.mp hsome
    rw [hv] at hgetD ⊢
    simp at hgetD
    rw [hgetD]
  · rw [if_neg h]
    rw [pyGet?_eq_none_iff]
    intro hmm
    exact h (hmem.mp hmm)

theorem pyGet?_filter_val (m : PyDict Nat) (k : String)
    (h : (m.map Prod.fst).Nodup) :
    pyGet? (m.filter (fun lc => 1 < lc.2)) k
      = (pyGet? m k).bind (fun v => if 1 < v then some v else none) := by
  induction m with
  | nil => simp [pyGet?]
  | cons kv rest ih =>
    obtain ⟨k₀, v₀⟩ := kv
    simp only [List.map_cons, List.nodup_cons] at h
    by_cases he : k₀ = k
    · subst he
      by_cases hv : 1 < v₀
      · simp [List.filter_cons, pyGet?, hv]
      · simp only [List.filter_cons]
        rw [if_neg (by simpa using hv)]
        have : pyGet? (rest.filter (fun lc => 1 < lc.2)) k₀ = none := by
          rw [pyGet?_eq_none_iff]
          intro hmem
          exact h.1 (by
            obtain ⟨lc, hlc, hfst⟩ := List.mem_map.mp hmem
            exact hfst ▸ List.mem_map_of_mem Prod.fst (List.mem_of_mem_filter hlc))
        rw [this]
        simp [pyGet?, hv]
    · simp only [List.filter_cons]
      by_cases hv : 1 < v₀
      · rw [if_pos (by simpa using hv)]
        simp only [pyGet?, if_neg he]
        exact ih h.2
      · rw [if_neg (by simpa using hv)]
        simp only [pyGet?, if_neg he]
        exact ih h.2

theorem nodup_keys_langUserCount (ps : List AProfile) :
    ((langUserCount ps).map Prod.fst).Nodup := by
  rw [langUserCount_eq_fold]
  exact nodup_keys_countFold _ _ (by simp)

theorem nodup_keys_topicUserCount (ps : List AProfile) :
    ((topicUserCount ps).map Prod.fst).Nodup := by
  rw [topicUserCount_eq_fold]
  exact nodup_keys_countFold _ _ (by simp)

/-- C8: a language is common iff more than one user has it in their language
distribution; `language_overlap` records, for exactly the common keys, the
number of users having the key; and symmetrically for topics. -/
theorem common_languages_topics_overlap_iff (ps : List AProfile) (L : String) :
    (L ∈ common_languages ps ↔ 1 < nUsersWithLang ps L) ∧
    (pyGet? (language_overlap ps) L
        = if 1 < nUsersWithLang ps L then some (nUsersWithLang ps L)
          else none) ∧
    (L ∈ common_topics ps ↔ 1 < nUsersWithTopic ps L) ∧
    (pyGet? (topic_overlap ps) L
        = if 1 < nUsersWithTopic ps L then some (nUsersWithTopic ps L)
          else none) := by
  have hlangGet : pyGet? (language_overlap ps) L
      = if 1 < nUsersWithLang ps L then some (nUsersWithLang ps L) else none := by
    rw [language_overlap, pyGet?_filter_val _ _ (nodup_keys_langUserCount ps),
      pyGet?_langUserCount]
    by_cases h1 : 1 < nUsersWithLang ps L
    · rw [if_pos (by omega), if_pos h1]
      simp [h1]
    · by_cases h0 : 0 < nUsersWithLang ps L
      · rw [if_pos h0, if_neg h1]
        simp [h1]
      · rw [if_neg h0, if_neg h1]
        rfl
  have htopGet : pyGet? (topic_overlap ps) L
      = if 1 < nUsersWithTopic ps L then some (nUsersWithTopic ps L) else none := by
    rw [topic_overlap, pyGet?_filter_val _ _ (nodup_keys_topicUserCount ps),
      pyGet?_topicUserCount]
    by_cases h1 : 1 < nUsersWithTopic ps L
    · rw [if_pos (by omega), if_pos h1]
      simp [h1]
    · by_cases h0 : 0 < nUsersWithTopic ps L
      · rw [if_pos h0, if_neg h1]
        simp [h1]
      · rw [if_neg h0, if_neg h1]
        rfl
  refine ⟨?_, hlangGet, ?_, htopGet⟩
  · rw [common_languages]
    constructor
    · intro hmem
      by_contra h1
      have : pyGet? (language_overlap ps) L = none := by rw [hlangGet, if_neg h1]
      exact absurd hmem ((pyGet?_eq_none_iff _ _).mp this)
    · intro h1
      by_contra hmem
      have := (pyGet?_eq_none_iff (language_overlap ps) L).mpr hmem
      rw [hlangGet, if_pos h1] at this
      exact Option.noConfusion this
  · rw [common_topics]
    constructor
    · intro hmem
      by_contra h1
      have : pyGet? (topic_overlap ps) L = none := by rw [htopGet, if_neg h1]
      exact absurd hmem ((pyGet?_eq_none_iff _ _).mp this)
    · intro h1
      by_contra hmem
      have := (pyGet?_eq_none_iff (topic_overlap ps) L).mpr hmem
      rw [htopGet, if_pos h1] at this
      exact Option.noConfusion this

theorem pySet_eq_append {α : Type} (m : PyDict α) (k : String) (v : α)
    (h : k ∉ m.map Prod.fst) : pySet m k v = m ++ [(k, v)] := by
  induction m with
  | nil => simp [pySet]
  | cons kv rest ih =>
    simp only [List.map_cons, List.mem_cons] at h
    push_neg at h
    have h0 : ¬ kv.1 = k := fun hh => h.1 (hh ▸ rfl)
    obtain ⟨k₀, v₀⟩ := kv
    simp only [pySet, if_neg h0, List.cons_append]
    rw [ih h.2]

theorem pyDictFold_eq_append {α : Type} (l : List (String × α)) (m : PyDict α)
    (h : (m.map Prod.fst ++ l.map Prod.fst).Nodup) :
    l.foldl (fun m kv => pySet m kv.1 kv.2) m = m ++ l := by
  induction l generalizing m with
  | nil => simp
  | cons kv rest ih =>
    have hnd := List.nodup_append.mp h
    have hk : kv.1 ∉ m.map Prod.fst := by
      intro hmem
      exact hnd.2.2 hmem (by simp)
    have hni : ((m ++ [(kv.1, kv.2)]).map Prod.fst
        ++ rest.map Prod.fst).Nodup := by
      rw [List.map_append]
      have heq : (m.map Prod.fst ++ List.map Prod.fst [(kv.1, kv.2)])
            ++ rest.map Prod.fst
          = m.map Prod.fst ++ (kv.1 :: rest.map Prod.fst) := by
        simp
      rw [heq]
      simpa using h
    rw [List.foldl_cons, pySet_eq_append m kv.1 kv.2 hk, ih _ hni]
    simp

theorem pyDictOf_eq_self {α : Type} (l : List (String × α))
    (h : (l.map Prod.fst).Nodup) : pyDictOf l = l := by
  rw [pyDictOf, pyDictFold_eq_append l [] (by simpa using h)]
  simp

theorem pyGet?_of_mem_nodup {α : Type} {m : PyDict α} {k : String} {v : α}
    (hn : (m.map Prod.fst).Nodup) (hmem : (k, v) ∈ m) : pyGet? m k = some v := by
  induction m with
  | nil => simp at hmem
  | cons kv rest ih =>
    simp only [List.map_cons, List.nodup_cons] at hn
    rcases List.mem_cons.mp hmem with he | hm
    · rw [← he]
      simp [pyGet?]
    · have hne : ¬ kv.1 = k := by
        intro hh
        exact hn.1 (hh ▸ List.mem_map_of_mem Prod.fst hm)
      obtain ⟨k₀, v₀⟩ := kv
      simp only [pyGet?, if_neg hne]
      exact ih hn.2 hm

theorem nodup_keys_bumpFoldF (f : String × Nat → Nat)
    (q : List (String × Nat)) (m : PyDict Nat)
    (h : (m.map Prod.fst).Nodup) :
    ((q.foldl (fun m lc => pyBump m lc.1 (f lc)) m).map Prod.fst).Nodup := by
  induction q generalizing m with
  | nil => exact h
  | cons lc rest ih => exact ih _ (nodup_keys_pyBump m lc.1 (f lc) h)

theorem nodup_keys_languageTotals (ps : List AProfile) :
    ((languageTotals ps).map Prod.fst).Nodup := by
  rw [languageTotals]
  suffices hgen : ∀ m : PyDict Nat, (m.map Prod.fst).Nodup →
      ((ps.foldl
          (fun m p => (userLanguages p).foldl (fun m lc => pyBump m lc.1 lc.2) m)
          m).map Prod.fst).Nodup by
    exact hgen [] (by simp)
  induction ps with
  | nil => intro m h; exact h
  | cons p rest ih =>
    intro m h
    exact ih _ (nodup_keys_bumpFoldF Prod.snd _ m h)

theorem mem_languageTotals_of_mem_sorted (ps : List AProfile)
    {kv : String × Nat} (h : kv ∈ sortedLangTotals ps) :
    pyGet? (languageTotals ps) kv.1 = some kv.2 :=
  pyGet?_of_mem_nodup (nodup_keys_languageTotals ps)
    ((pySortValDesc_perm (languageTotals ps)).mem_iff.mp h)

theorem nodup_keys_userTop (p : AProfile) (top : List String) :
    ((userTop p top).map Prod.fst).Nodup := by
  rw [userTop]
  apply pySortValDesc_nodup_keys
  exact ((List.filter_sublist _).map Prod.fst).nodup
    (nodup_keys_pyDictOf p.languages)

theorem keys_rankList (p : AProfile) (top : List String) :
    (((userTop p top).enum.map
        (fun iv => (iv.2.1, (userTop p top).length - iv.1))).map Prod.fst)
      = (userTop p top).map Prod.fst := by
  rw [List.map_map]
  conv_rhs => rw [← List.enum_map_snd (userTop p top), List.map_map]
  rfl

theorem userLanguageRanks_eq (p : AProfile) (top : List String) :
    userLanguageRanks p top
      = (userTop p top).enum.map
          (fun iv => (iv.2.1, (userTop p top).length - iv.1)) := by
  rw [userLanguageRanks]
  apply pyDictOf_eq_self
  rw [keys_rankList]
  exact nodup_keys_userTop p top

theorem ranks_vals_eq (p : AProfile) (top : List String) :
    (userLanguageRanks p top).map Prod.snd
      = (List.range (userTop p top).length).map
          (fun i => (userTop p top).length - i) := by
  rw [userLanguageRanks_eq, List.map_map]
  conv_lhs =>
    rw [show (Prod.snd ∘ fun iv : Nat × (String × Nat) =>
        (iv.2.1, (userTop p top).length - iv.1))
      = (fun i => (userTop p top).length - i) ∘ Prod.fst from rfl]
  rw [← List.map_map, List.enum_map_fst]

theorem mem_ranks_vals_iff (p : AProfile) (top : List String) (n : Nat) :
    n ∈ (userLanguageRanks p top).map Prod.snd
      ↔ 1 ≤ n ∧ n ≤ (userTop p top).length := by
  rw [ranks_vals_eq]
  constructor
  · intro h
    obtain ⟨i, hi, he⟩ := List.mem_map.mp h
    rw [List.mem_range] at hi
    omega
  · rintro ⟨h1, h2⟩
    refine List.mem_map.mpr ⟨(userTop p top).length - n, ?_, by omega⟩
    rw [List.mem_range]
    omega

theorem ranks_vals_nodup (p : AProfile) (top : List String) :
    ((userLanguageRanks p top).map Prod.snd).Nodup := by
  rw [ranks_vals_eq]
  refine List.Nodup.map_on ?_ (List.nodup_range _)
  intro i hi j hj he
  rw [List.mem_range] at hi hj
  omega

theorem pyGet?_ranks_get (p : AProfile) (top : List String) (i : Nat)
    (h : i < (userTop p top).length) :
    pyGet? (userLanguageRanks p top) ((userTop p top).get ⟨i, h⟩).1
      = some ((userTop p top).length - i) := by
  rw [userLanguageRanks_eq]
  apply pyGet?_of_mem_nodup
  · rw [keys_rankList]
    exact nodup_keys_userTop p top
  · refine List.mem_map.mpr ⟨(i, (userTop p top).get ⟨i, h⟩), ?_, rfl⟩
    have hlen : i < (userTop p top).enum.length := by simpa using h
    have hget : (userTop p top).enum.get ⟨i, hlen⟩
        = (i, (userTop p top).get ⟨i, h⟩) := by
      simp [List.getElem_enum]
    rw [← hget]
    exact List.get_mem _ i hlen

theorem getRank_eq_zero_of_not_used (p : AProfile) (top : List String)
    (lang : String) (h : ¬ pyContains (userLanguages p) lang = true) :
    getRank p top lang = 0 := by
  rw [getRank]
  have hkey : lang ∉ (userLanguages p).map Prod.fst := by
    intro hmem
    exact h ((pyContains_iff _ _).mpr hmem)
  have hnone : pyGet? (userLanguageRanks p top) lang = none := by
    rw [pyGet?_eq_none_iff, userLanguageRanks_eq, keys_rankList]
    intro hmem
    apply hkey
    have hsub : ((userTop p top).map Prod.fst)
        ⊆ ((userLanguages p).map Prod.fst) := by
      intro x hx
      have := ((pySortValDesc_perm _).map Prod.fst).mem_iff.mp hx
      obtain ⟨lc, hlc, hfst⟩ := List.mem_map.mp this
      exact hfst ▸ List.mem_map_of_mem Prod.fst (List.mem_of_mem_filter hlc)
    exact hsub hmem
  rw [hnone]
  rfl

theorem radar_map_fst (ps : List AProfile) :
    (get_radar_chart_data ps).map Prod.fst = topLanguages ps := by
  rw [get_radar_chart_data, List.map_map]
  exact List.map_id _

theorem radarEntry_eq (ps : List AProfile) (lang : String)
    (husers : (ps.map AProfile.username).Nodup) :
    radarEntry ps lang
      = ps.map (fun p => (p.username, getRank p (topLanguages ps) lang)) := by
  rw [radarEntry]
  apply pyDictOf_eq_self
  rw [List.map_map]
  simpa using husers

theorem radar_desc (ps : List AProfile) :
    ((get_radar_chart_data ps).map Prod.fst).Pairwise
      (fun a b => (pyGet? (languageTotals ps) b).getD 0
        ≤ (pyGet? (languageTotals ps) a).getD 0) := by
  rw [radar_map_fst, topLanguages, List.pairwise_map]
  have hs : ((sortedLangTotals ps).take 10).Pairwise valGE :=
    (pySortValDesc_sorted _).sublist (List.take_sublist _ _)
  refine List.Pairwise.imp_of_mem ?_ hs
  intro a b ha hb hab
  have hma : pyGet? (languageTotals ps) a.1 = some a.2 :=
    mem_languageTotals_of_mem_sorted ps (List.mem_of_mem_take ha)
  have hmb : pyGet? (languageTotals ps) b.1 = some b.2 :=
    mem_languageTotals_of_mem_sorted ps (List.mem_of_mem_take hb)
  rw [hma, hmb]
  exact hab

/-- C5: with `k` the number of global top-set languages a user uses, the
radar ranks assigned to that user are exactly the set `{1, …, k}` with no
repetition: the user's top-set languages sorted by byte count descending
receive ranks `k` down to `1` positionally (so the highest-byte language
receives `k` and the lowest receives `1`), every top-set language the user
does not use gets rank 0, and `get_radar_chart_data` lists the top languages
in global-total descending order, each entry mapping every username to its
rank for that language. -/
theorem radar_rank_spec (ps : List AProfile) (p : AProfile)
    (husers : (ps.map AProfile.username).Nodup) :
    ((userTop p (topLanguages ps)).length
        = ((userLanguages p).filter
            (fun lc => (topLanguages ps).contains lc.1)).length) ∧
    (∀ n, n ∈ (userLanguageRanks p (topLanguages ps)).map Prod.snd ↔
        1 ≤ n ∧ n ≤ (userTop p (topLanguages ps)).length) ∧
    ((userLanguageRanks p (topLanguages ps)).map Prod.snd).Nodup ∧
    ((userTop p (topLanguages ps)).Pairwise (fun a b => b.2 ≤ a.2)) ∧
    (∀ i (h : i < (userTop p (topLanguages ps)).length),
        pyGet? (userLanguageRanks p (topLanguages ps))
            ((userTop p (topLanguages ps)).get ⟨i, h⟩).1
          = some ((userTop p (topLanguages ps)).length - i)) ∧
    (∀ lang ∈ topLanguages ps, ¬ pyContains (userLanguages p) lang = true →
        getRank p (topLanguages ps) lang = 0) ∧
    ((get_radar_chart_data ps).map Prod.fst = topLanguages ps) ∧
    (((get_radar_chart_data ps).map Prod.fst).Pairwise
        (fun a b => (pyGet? (languageTotals ps) b).getD 0
          ≤ (pyGet? (languageTotals ps) a).getD 0)) ∧
    (∀ e ∈ get_radar_chart_data ps,
        e.2 = ps.map (fun q => (q.username, getRank q (topLanguages ps) e.1))) := by
  refine ⟨(pySortValDesc_perm _).length_eq, mem_ranks_vals_iff p _,
    ranks_vals_nodup p _, pySortValDesc_sorted _, pyGet?_ranks_get p _,
    fun lang _ h => getRank_eq_zero_of_not_used p _ lang h,
    radar_map_fst ps, radar_desc ps, ?_⟩
  intro e he
  rw [get_radar_chart_data] at he
  obtain ⟨lang, _, hlang⟩ := List.mem_map.mp he
  rw [← hlang]
  exact radarEntry_eq ps lang husers

/-- A second concrete profile (for analyzer witnesses). -/
def sampleAlice : AProfile :=
  ⟨"alice", [("Python", 1600), ("Shell", 200)], [("api", 1), ("python", 2)]⟩

/-- A third concrete profile (for analyzer witnesses). -/
def sampleBob : AProfile :=
  ⟨"bob", [("Go", 900), ("Python", 300)], [("web", 1), ("python", 1)]⟩

/-- The concrete profile list used to instantiate analyzer theorems. -/
def sampleProfiles : List AProfile := [sampleAlice, sampleBob]

/-- Witness for the radar-rank property: at the two concrete profiles, the
global top set is Python, Go, Shell (descending by total bytes), alice's
ranks are Python ↦ 2, Shell ↦ 1, and the property instantiates there. -/
theorem radar_rank_spec_witness :
    (sampleProfiles.map AProfile.username).Nodup ∧
    topLanguages sampleProfiles = ["Python", "Go", "Shell"] ∧
    userLanguageRanks sampleAlice (topLanguages sampleProfiles)
        = [("Python", 2), ("Shell", 1)] ∧
    (((userTop sampleAlice (topLanguages sampleProfiles)).length
        = ((userLanguages sampleAlice).filter
            (fun lc => (topLanguages sampleProfiles).contains lc.1)).length) ∧
    (∀ n, n ∈ (userLanguageRanks sampleAlice
          (topLanguages sampleProfiles)).map Prod.snd ↔
        1 ≤ n ∧ n ≤ (userTop sampleAlice (topLanguages sampleProfiles)).length) ∧
    ((userLanguageRanks sampleAlice
        (topLanguages sampleProfiles)).map Prod.snd).Nodup ∧
    ((userTop sampleAlice (topLanguages sampleProfiles)).Pairwise
        (fun a b => b.2 ≤ a.2)) ∧
    (∀ i (h : i < (userTop sampleAlice (topLanguages sampleProfiles)).length),
        pyGet? (userLanguageRanks sampleAlice (topLanguages sampleProfiles))
            ((userTop sampleAlice (topLanguages sampleProfiles)).get ⟨i, h⟩).1
          = some ((userTop sampleAlice
              (topLanguages sampleProfiles)).length - i)) ∧
    (∀ lang ∈ topLanguages sampleProfiles,
        ¬ pyContains (userLanguages sampleAlice) lang = true →
          getRank sampleAlice (topLanguages sampleProfiles) lang = 0) ∧
    ((get_radar_chart_data sampleProfiles).map Prod.fst
        = topLanguages sampleProfiles) ∧
    (((get_radar_chart_data sampleProfiles).map Prod.fst).Pairwise
        (fun a b => (pyGet? (languageTotals sampleProfiles) b).getD 0
          ≤ (pyGet? (languageTotals sampleProfiles) a).getD 0)) ∧
    (∀ e ∈ get_radar_chart_data sampleProfiles,
        e.2 = sampleProfiles.map
          (fun q => (q.username, getRank q (topLanguages sampleProfiles) e.1)))) :=
  ⟨by decide, by decide, by decide,
    radar_rank_spec sampleProfiles sampleAlice (by decide)⟩

/-! ## Batch fetching (`fetch_users_batch` and friends)

Upstream I/O is modelled by an environment giving the outcome of the light
batch query and of each single-user query, and every fetch function returns,
alongside its result, the ordered log of upstream queries it issued. -/

/-- A FastAPI `HTTPException` (status code and human-readable detail). -/
structure HTTPException where
  status_code : Nat
  detail : String
deriving Repr, DecidableEq, Inhabited

/-- One upstream GraphQL request issued by the service. -/
inductive Query where
  | lightBatch (usernames : List String)
  | singleUser (username : String)
deriving Repr, DecidableEq, Inhabited

/-- The upstream environment: the outcome of the combined light-batch query
(a per-username mapping on success, an `HTTPException` on failure) and the
outcome of each single-user query (`none` models GraphQL's `user: null` for
an unknown login). -/
structure Upstream where
  light : Except HTTPException (String → Option RawUser)
  single : String → Except HTTPException (Option RawUser)

/-- The result mapping built by `_fetch_users_batch_light`:
`results[username] = data[f"user{i}"]` for each alias that resolved. -/
def lightResults (f : String → Option RawUser) (usernames : List String) :
    PyDict RawUser :=
  usernames.foldl
    (fun m u =>
      match f u with
      | some d => pySet m u d
      | none => m)
    []

/-- `_fetch_users_batch_light`: one combined query; on success the per-alias
results are remapped to usernames, a raised `HTTPException` propagates. -/
def fetch_users_batch_light (env : Upstream) (usernames : List String) :
    Except HTTPException (PyDict RawUser) × List Query :=
  match env.light with
  | .error e => (.error e, [.lightBatch usernames])
  | .ok f => (.ok (lightResults f usernames), [.lightBatch usernames])

/-- `_fetch_users_sequential`: fetch users one at a time with the full query,
in input order; a username that raises 404 is skipped with a warning, a
`user: null` result is silently not added, any other `HTTPException`
propagates (aborting the loop). -/
def fetch_users_sequential (env : Upstream) :
    List String → PyDict RawUser → List Query →
      Except HTTPException (PyDict RawUser) × List Query
  | [], acc, log => (.ok acc, log)
  | u :: rest, acc, log =>
    match env.single u with
    | .error e =>
        if e.status_code = 404 then
          fetch_users_sequential env rest acc (log ++ [.singleUser u])
        else (.error e, log ++ [.singleUser u])
    | .ok none => fetch_users_sequential env rest acc (log ++ [.singleUser u])
    | .ok (some d) =>
        fetch_users_sequential env rest (pySet acc u d) (log ++ [.singleUser u])

/-- `fetch_users_batch`: empty input short-circuits to `{}`; otherwise try
the light batch and, exactly when it raises an `HTTPException` with status in
{502, 503, 504}, fall back to sequential fetching; any other exception
propagates. -/
def fetch_users_batch (env : Upstream) (usernames : List String) :
    Except HTTPException (PyDict RawUser) × List Query :=
  if usernames.isEmpty then (.ok [], [])
  else
    match fetch_users_batch_light env usernames with
    | (.error e, log) =>
        if e.status_code = 502 ∨ e.status_code = 503 ∨ e.status_code = 504 then
          let sr := fetch_users_sequential env usernames [] []
          (sr.1, log ++ sr.2)
        else (.error e, log)
    | (.ok m, log) => (.ok m, log)

/-- `get_users_for_analytics_batch`: batch-fetch, then fail with a 404 naming
every missing username if any requested username has no data, else transform
in caller-supplied order. -/
def get_users_for_analytics_batch (env : Upstream) (usernames : List String) :
    Except HTTPException (List NormalizedProfile) × List Query :=
  match fetch_users_batch env usernames with
  | (.error e, log) => (.error e, log)
  | (.ok m, log) =>
      let missing := usernames.filter (fun u => ¬ pyContains m u)
      if missing.isEmpty then
        (.ok (usernames.map (fun u =>
          transform_to_analytics_format ((pyGet? m u).getD default))), log)
      else
        (.error ⟨404, "Users not found: " ++ String.intercalate ", " missing⟩,
          log)

theorem fetch_users_sequential_log (env : Upstream) (usernames : List String)
    (acc : PyDict RawUser) (log : List Query)
    (h : ∀ u ∈ usernames, ∀ e, env.single u = .error e → e.status_code = 404) :
    (fetch_users_sequential env usernames acc log).2
      = log ++ usernames.map Query.singleUser := by
  induction usernames generalizing acc log with
  | nil => simp [fetch_users_sequential]
  | cons u rest ih =>
    have hrest : ∀ u' ∈ rest, ∀ e, env.single u' = .error e →
        e.status_code = 404 :=
      fun u' hu' => h u' (List.mem_cons_of_mem u hu')
    cases hs : env.single u with
    | error e =>
      have h404 : e.status_code = 404 := h u (List.mem_cons_self u rest) e hs
      rw [fetch_users_sequential, hs]
      dsimp only
      rw [if_pos h404, ih _ _ hrest]
      simp
    | ok od =>
      cases od with
      | none =>
        rw [fetch_users_sequential, hs]
        dsimp only
        rw [ih _ _ hrest]
        simp
      | some d =>
        rw [fetch_users_sequential, hs]
        dsimp only
        rw [ih _ _ hrest]
        simp

/-- C2 (amended): the fallback to sequential fetching triggers if and only if
the light-batch query fails with an `HTTPException` whose status is one of
{502, 503, 504}; every other light-batch failure propagates unchanged; and
when the fallback triggers for `N` usernames and no per-user fetch fails with
a non-404 error, it issues exactly `N` single-user fetches sequentially in
input order. -/
theorem fetch_users_batch_fallback_spec (env : Upstream)
    (usernames : List String) (hne : usernames ≠ []) :
    (∀ f, env.light = .ok f →
        fetch_users_batch env usernames
          = (.ok (lightResults f usernames), [.lightBatch usernames])) ∧
    (∀ e, env.light = .error e →
        (e.status_code = 502 ∨ e.status_code = 503 ∨ e.status_code = 504) →
        fetch_users_batch env usernames
          = ((fetch_users_sequential env usernames [] []).1,
             .lightBatch usernames
               :: (fetch_users_sequential env usernames [] []).2)) ∧
    (∀ e, env.light = .error e →
        ¬ (e.status_code = 502 ∨ e.status_code = 503 ∨ e.status_code = 504) →
        fetch_users_batch env usernames = (.error e, [.lightBatch usernames])) ∧
    ((∀ u ∈ usernames, ∀ e, env.single u = .error e → e.status_code = 404) →
        (fetch_users_sequential env usernames [] []).2
          = usernames.map Query.singleUser) := by
  have hempty : usernames.isEmpty = false := by
    cases usernames with
    | nil => exact absurd rfl hne
    | cons u rest => rfl
  refine ⟨?_, ?_, ?_, ?_⟩
  · intro f hf
    rw [fetch_users_batch, hempty]
    dsimp only
    rw [fetch_users_batch_light, hf]
    simp
  · intro e he hst
    rw [fetch_users_batch, hempty]
    dsimp only
    rw [fetch_users_batch_light, he]
    dsimp only
    rw [if_pos hst]
    simp
  · intro e he hst
    rw [fetch_users_batch, hempty]
    dsimp only
    rw [fetch_users_batch_light, he]
    dsimp only
    rw [if_neg hst]
    simp
  · intro h
    simpa using fetch_users_sequential_log env usernames [] [] h

/-- The environment refuting the unconditional "exactly N single-user
fetches" reading: the light batch fails with 503, and the first per-user
fetch fails with a non-404 error. -/
def cexEnvC2 : Upstream :=
  { light := .error ⟨503, "Service unavailable"⟩
    single := fun u =>
      if u = "alice" then .error ⟨500, "GitHub API error: 500"⟩
      else .ok (some sampleRawUser) }

/-- C2 counterexample: with the light batch failing with 503 for the two
usernames alice, bob, the fallback triggers but — because fetching alice
fails with a non-404 error — only one single-user fetch is issued, not two,
and the per-user error propagates. -/
theorem fetch_users_batch_fallback_aborts_early :
    (fetch_users_batch cexEnvC2 ["alice", "bob"]).2
        = [.lightBatch ["alice", "bob"], .singleUser "alice"] ∧
    (fetch_users_batch cexEnvC2 ["alice", "bob"]).1
        = .error ⟨500, "GitHub API error: 500"⟩ ∧
    ¬ ((fetch_users_batch cexEnvC2 ["alice", "bob"]).2.countP
          (fun q => match q with | .singleUser _ => true | _ => false)
        = (["alice", "bob"] : List String).length) :=
  ⟨rfl, rfl, by decide⟩

/-- The environment for the fallback witness: the light batch fails with
503 and both per-user fetches succeed. -/
def witEnvC2 : Upstream :=
  { light := .error ⟨503, "Service unavailable"⟩
    single := fun _ => .ok (some sampleRawUser) }

/-- Witness for the amended fallback property: at a concrete environment
whose light batch fails with 503 and whose per-user fetches all succeed, the
fallback issues exactly the two single-user fetches in input order. -/
theorem fetch_users_batch_fallback_spec_witness :
    ((fetch_users_batch witEnvC2 ["alice", "bob"]).2
        = [.lightBatch ["alice", "bob"], .singleUser "alice",
           .singleUser "bob"]) ∧
    ((∀ f, witEnvC2.light = .ok f →
        fetch_users_batch witEnvC2 ["alice", "bob"]
          = (.ok (lightResults f ["alice", "bob"]),
             [.lightBatch ["alice", "bob"]])) ∧
    (∀ e, witEnvC2.light = .error e →
        (e.status_code = 502 ∨ e.status_code = 503 ∨ e.status_code = 504) →
        fetch_users_batch witEnvC2 ["alice", "bob"]
          = ((fetch_users_sequential witEnvC2 ["alice", "bob"] [] []).1,
             .lightBatch ["alice", "bob"]
               :: (fetch_users_sequential witEnvC2 ["alice", "bob"] [] []).2)) ∧
    (∀ e, witEnvC2.light = .error e →
        ¬ (e.status_code = 502 ∨ e.status_code = 503 ∨ e.status_code = 504) →
        fetch_users_batch witEnvC2 ["alice", "bob"]
          = (.error e, [.lightBatch ["alice", "bob"]])) ∧
    ((∀ u ∈ (["alice", "bob"] : List String), ∀ e,
          witEnvC2.single u = .error e → e.status_code = 404) →
        (fetch_users_sequential witEnvC2 ["alice", "bob"] [] []).2
          = (["alice", "bob"] : List String).map Query.singleUser)) :=
  ⟨rfl, fetch_users_batch_fallback_spec witEnvC2 ["alice", "bob"] (by decide)⟩

/-- C3: if, after the light batch (and, when triggered, the sequential
fallback), some requested username has no data, `get_users_for_analytics_batch`
fails with a 404 whose detail names exactly the missing usernames (in request
order); on success the transformed profiles come back in caller-supplied
order; upstream errors propagate unchanged; and during the sequential
fallback a per-user 404 is skipped while any other per-user error
propagates. -/
theorem get_users_for_analytics_batch_spec (env : Upstream)
    (usernames : List String) :
    (∀ m log, fetch_users_batch env usernames = (.ok m, log) →
        (usernames.filter (fun u => ¬ pyContains m u) ≠ [] →
            get_users_for_analytics_batch env usernames
              = (.error ⟨404, "Users not found: "
                  ++ String.intercalate ", "
                      (usernames.filter (fun u => ¬ pyContains m u))⟩,
                 log)) ∧
        (usernames.filter (fun u => ¬ pyContains m u) = [] →
            get_users_for_analytics_batch env usernames
              = (.ok (usernames.map (fun u =>
                  transform_to_analytics_format ((pyGet? m u).getD default))),
                 log))) ∧
    (∀ e log, fetch_users_batch env usernames = (.error e, log) →
        get_users_for_analytics_batch env usernames = (.error e, log)) ∧
    (∀ u rest acc log e, env.single u = .error e →
        (e.status_code = 404 →
            fetch_users_sequential env (u :: rest) acc log
              = fetch_users_sequential env rest acc
                  (log ++ [.singleUser u])) ∧
        (¬ e.status_code = 404 →
            fetch_users_sequential env (u :: rest) acc log
              = (.error e, log ++ [.singleUser u]))) := by
  refine ⟨?_, ?_, ?_⟩
  · intro m log hfetch
    constructor
    · intro hmiss
      rw [get_users_for_analytics_batch, hfetch]
      dsimp only
      rw [if_neg (by simpa [List.isEmpty_iff] using hmiss)]
    · intro hmiss
      rw [get_users_for_analytics_batch, hfetch]
      dsimp only
      rw [if_pos (by simpa [List.isEmpty_iff] using hmiss)]
  · intro e log hfetch
    rw [get_users_for_analytics_batch, hfetch]
  · intro u rest acc log e hs
    constructor
    · intro h404
      rw [fetch_users_sequential, hs]
      dsimp only
      rw [if_pos h404]
    · intro h404
      rw [fetch_users_sequential, hs]
      dsimp only
      rw [if_neg h404]

/-- The environment for the missing-user witness: the light batch succeeds
but resolves only alice; ghost comes back as `null`. -/
def witEnvC3 : Upstream :=
  { light := .ok (fun u => if u = "alice" then some sampleRawUser else none)
    single := fun _ => .ok none }

/-- Witness for the missing-user property: with usernames alice, ghost and a
light batch resolving only alice, the overall call fails with a 404 naming
ghost, and the property instantiates there. -/
theorem get_users_for_analytics_batch_spec_witness :
    ((get_users_for_analytics_batch witEnvC3 ["alice", "ghost"]).1
        = .error ⟨404, "Users not found: ghost"⟩) ∧
    (∀ m log,
        fetch_users_batch witEnvC3 ["alice", "ghost"] = (.ok m, log) →
        ((["alice", "ghost"] : List String).filter
              (fun u => ¬ pyContains m u) ≠ [] →
            get_users_for_analytics_batch witEnvC3 ["alice", "ghost"]
              = (.error ⟨404, "Users not found: "
                  ++ String.intercalate ", "
                      ((["alice", "ghost"] : List String).filter
                        (fun u => ¬ pyContains m u))⟩,
                 log)) ∧
        ((["alice", "ghost"] : List String).filter
              (fun u => ¬ pyContains m u) = [] →
            get_users_for_analytics_batch witEnvC3 ["alice", "ghost"]
              = (.ok ((["alice", "ghost"] : List String).map (fun u =>
                  transform_to_analytics_format ((pyGet? m u).getD default))),
                 log))) :=
  ⟨rfl, (get_users_for_analytics_batch_spec witEnvC3 ["alice", "ghost"]).1⟩

/-- C10: calling `fetch_users_batch` with an empty username list returns an
empty mapping and issues no upstream query at all. -/
theorem fetch_users_batch_empty_no_queries (env : Upstream) :
    fetch_users_batch env [] = (.ok [], []) := rfl

/-! ## JSON values and `json.loads`

The LLM gateway and its parser work on raw JSON text.  `Json` models Python
JSON values (numbers restricted to integers, which is all the verified
inputs use), and `json_loads` is a fuel-driven shift-reduce parser with
Python's duplicate-key semantics (later bindings win). -/

/-- A JSON value as produced by `json.loads` (integers only). -/
inductive Json where
  | null
  | bool (b : Bool)
  | num (n : Int)
  | str (s : String)
  | arr (elems : List Json)
  | obj (fields : List (String × Json))
deriving Repr, Inhabited

/-- JSON / Python whitespace (`\s` of `re`, `strip()`): space, tab, newline,
carriage return, form feed, vertical tab. -/
def isWsChar (c : Char) : Bool :=
  c = ' ' ∨ c = '\t' ∨ c = '\n' ∨ c = '\r' ∨ c = '\x0b' ∨ c = '\x0c'

/-- Drop leading whitespace. -/
def skipWs (s : List Char) : List Char := s.dropWhile isWsChar

/-- Parse a JSON string literal after the opening quote, handling the simple
escapes (the verified inputs use none). -/
def parseStringLit : List Char → Option (String × List Char)
  | [] => none
  | '"' :: rest => some ("", rest)
  | '\\' :: e :: rest =>
      let esc : Option Char :=
        if e = '"' then some '"'
        else if e = '\\' then some '\\'
        else if e = '/' then some '/'
        else if e = 'n' then some '\n'
        else if e = 't' then some '\t'
        else if e = 'r' then some '\r'
        else none
      match esc with
      | none => none
      | some c =>
          match parseStringLit rest with
          | some (s, rest') => some (⟨c :: s.toList⟩, rest')
          | none => none
  | c :: rest =>
      match parseStringLit rest with
      | some (s, rest') => some (⟨c :: s.toList⟩, rest')
      | none => none

/-- Digits of a nonnegative integer literal. -/
def takeDigits (s : List Char) : List Char × List Char :=
  (s.takeWhile Char.isDigit, s.dropWhile Char.isDigit)

/-- Value of a digit list. -/
def digitsVal (ds : List Char) : Nat :=
  ds.foldl (fun n c => n * 10 + (c.toNat - '0'.toNat)) 0

/-- Parse an integer literal (optional minus sign). -/
def parseIntLit (s : List Char) : Option (Int × List Char) :=
  match s with
  | '-' :: rest =>
      match takeDigits rest with
      | ([], _) => none
      | (ds, rest') => some (-(digitsVal ds : Int), rest')
  | _ =>
      match takeDigits s with
      | ([], _) => none
      | (ds, rest') => some ((digitsVal ds : Int), rest')

/-- A frame of the shift-reduce JSON parser: an array or an object being
built. -/
inductive JFrame where
  | arr (acc : List Json)
  | objVal (acc : List (String × Json)) (key : String)

/-- The parser state: expecting a value, or holding a completed value. -/
inductive JState where
  | expectValue
  | haveValue (v : Json)

/-- One shift-reduce JSON parser, fuel-driven so that it is structurally
recursive (the fuel passed by `json_loads` always suffices). -/
def jsonStep : Nat → List JFrame → JState → List Char → Option Json
  | 0, _, _, _ => none
  | Nat.succ fuel, stack, .expectValue, s =>
      match skipWs s with
      | 'n' :: 'u' :: 'l' :: 'l' :: rest =>
          jsonStep fuel stack (.haveValue .null) rest
      | 't' :: 'r' :: 'u' :: 'e' :: rest =>
          jsonStep fuel stack (.haveValue (.bool true)) rest
      | 'f' :: 'a' :: 'l' :: 's' :: 'e' :: rest =>
          jsonStep fuel stack (.haveValue (.bool false)) rest
      | '"' :: rest =>
          match parseStringLit rest with
          | some (str, rest') => jsonStep fuel stack (.haveValue (.str str)) rest'
          | none => none
      | '[' :: rest =>
          match skipWs rest with
          | ']' :: rest' => jsonStep fuel stack (.haveValue (.arr [])) rest'
          | rest' => jsonStep fuel (.arr [] :: stack) .expectValue rest'
      | '{' :: rest =>
          match skipWs rest with
          | '}' :: rest' => jsonStep fuel stack (.haveValue (.obj [])) rest'
          | '"' :: rest' =>
              match parseStringLit rest' with
              | some (key, rest2) =>
                  match skipWs rest2 with
                  | ':' :: rest3 =>
                      jsonStep fuel (.objVal [] key :: stack) .expectValue rest3
                  | _ => none
              | none => none
          | _ => none
      | c :: rest =>
          if c.isDigit ∨ c = '-' then
            match parseIntLit (c :: rest) with
            | some (n, rest') => jsonStep fuel stack (.haveValue (.num n)) rest'
            | none => none
          else none
      | [] => none
  | Nat.succ fuel, stack, .haveValue v, s =>
      match stack with
      | [] => if (skipWs s).isEmpty then some v else none
      | .arr acc :: stack' =>
          match skipWs s with
          | ',' :: rest => jsonStep fuel (.arr (acc ++ [v]) :: stack') .expectValue rest
          | ']' :: rest => jsonStep fuel stack' (.haveValue (.arr (acc ++ [v]))) rest
          | _ => none
      | .objVal acc key :: stack' =>
          match skipWs s with
          | ',' :: rest =>
              match skipWs rest with
              | '"' :: rest' =>
                  match parseStringLit rest' with
                  | some (key2, rest2) =>
                      match skipWs rest2 with
                      | ':' :: rest3 =>
                          jsonStep fuel (.objVal (acc ++ [(key, v)]) key2 :: stack')
                            .expectValue rest3
                      | _ => none
                  | none => none
              | _ => none
          | '}' :: rest =>
              jsonStep fuel stack'
                (.haveValue (.obj (pyDictOf (acc ++ [(key, v)])))) rest
          | _ => none

/-- `json.loads`: parse the whole string as one JSON value (trailing
whitespace allowed, anything else is a `JSONDecodeError`, modelled as
`none`). -/
def json_loads (s : String) : Option Json :=
  jsonStep (4 * s.length + 8) [] .expectValue s.toList

/-! ## Response-text extraction (`parse_compatibility_response`, step 1)

The code first searches for a fenced JSON block with the regex
`` ```(?:json)?\s*({.*?})\s*``` `` (DOTALL), then for a bare JSON object
with `{.*}` (DOTALL), then falls back to the whole text stripped.  Both
regex searches are reproduced here with their exact leftmost /
lazy / greedy semantics on the two concrete patterns. -/

/-- Does `s` begin with whitespace followed by three backticks?  (The regex
tail `\s*``` ` after the lazy group.) -/
def closesFence (s : List Char) : Bool :=
  match skipWs s with
  | '`' :: '`' :: '`' :: _ => true
  | _ => false

/-- Scan for the lazily-shortest group end: the first `}` after which
(whitespace then) three backticks follow.  `acc` holds the group chars read
so far (without the opening brace). -/
def lazyGroup (acc : List Char) : List Char → Option (List Char)
  | [] => none
  | c :: rest =>
      if c = '}' ∧ closesFence rest then some (acc ++ ['}'])
      else lazyGroup (acc ++ [c]) rest

/-- Try to match `` ```(?:json)?\s*({.*?})\s*``` `` at the start of `s`,
returning the group.  The optional `json` tag and the whitespace are
deterministic here because backtracking them can never help (`j` and
whitespace are not `{`). -/
def fencedAt (s : List Char) : Option (List Char) :=
  match s with
  | '`' :: '`' :: '`' :: rest =>
      let rest :=
        match rest with
        | 'j' :: 's' :: 'o' :: 'n' :: rest' => rest'
        | _ => rest
      match skipWs rest with
      | '{' :: rest' =>
          match lazyGroup [] rest' with
          | some g => some ('{' :: g)
          | none => none
      | _ => none
  | _ => none

/-- Leftmost match of the fenced pattern: try every start position from the
left. -/
def fencedSearch : List Char → Option (List Char)
  | [] => none
  | c :: rest =>
      match fencedAt (c :: rest) with
      | some g => some g
      | none => fencedSearch rest

/-- Leftmost-then-greedy match of `{.*}` (DOTALL): from the first `{` that
has a `}` after it, up to the last `}` of the text. -/
def bareSearch (s : List Char) : Option (List Char) :=
  match s.dropWhile (fun c => ¬ c = '{') with
  | [] => none
  | _ :: tail =>
      if tail.contains '}' then
        some ('{' :: ((tail.reverse.dropWhile (fun c => ¬ c = '}')).reverse))
      else none

/-- Python's `str.strip()`. -/
def pyStrip (s : String) : String :=
  ⟨(((s.toList.dropWhile isWsChar).reverse.dropWhile isWsChar).reverse)⟩

/-- The extraction cascade of `parse_compatibility_response`: fenced JSON
block first, then a bare JSON object pattern, then the whole text
stripped. -/
def extract_json_str (raw : String) : String :=
  match fencedSearch raw.toList with
  | some g => ⟨g⟩
  | none =>
      match bareSearch raw.toList with
      | some g => ⟨g⟩
      | none => pyStrip raw

/-! ## Response validation (`parse_compatibility_response`, step 2)

Errors distinguish a raised (and caught-and-rethrown) FastAPI
`HTTPException` from an uncaught Python-level exception. -/

/-- A failure of the LLM gateway or parser: either an `HTTPException`
deliberately raised by the code, or an uncaught Python exception. -/
inductive LLMError where
  | http (status : Nat) (detail : String)
  | pyExc (kind : String) (msg : String)
deriving Repr, DecidableEq, Inhabited

/-- `models.CompatibilityFactor`: pydantic model with required fields
`label` and `explanation`. -/
structure CompatibilityFactor where
  label : String
  explanation : String
deriving Repr, DecidableEq, Inhabited

/-- `llm_service.CompatibilityResponse`: validated score, reasoning and
exactly four factors. -/
structure CompatibilityResponse where
  score : Int
  reasoning : String
  compatibility_factors : List CompatibilityFactor
deriving Repr, DecidableEq, Inhabited

/-- Python's `key in data` on a JSON value: key membership for a dict,
element equality for a list, substring test for a string, `TypeError`
otherwise. -/
def pyInJson (k : String) (j : Json) : Except LLMError Bool :=
  match j with
  | .obj fields => .ok (fields.any (fun kv => kv.1 = k))
  | .arr elems =>
      .ok (elems.any (fun e => match e with | .str s => s = k | _ => false))
  | .str s => .ok (pyIn k s)
  | _ => .error (.pyExc "TypeError" "argument is not iterable")

/-- Python's `data[k]` on a JSON value: `KeyError` for a missing dict key,
`TypeError` for non-dict values. -/
def pyGetItem (j : Json) (k : String) : Except LLMError Json :=
  match j with
  | .obj fields =>
      match pyGet? fields k with
      | some v => .ok v
      | none => .error (.pyExc "KeyError" k)
  | _ => .error (.pyExc "TypeError" "indices must be integers")

/-- The factor-building list comprehension
`[CompatibilityFactor(label=f["label"], indicator=f["indicator"]) for f in factors_data]`.
A `KeyError`/`TypeError` from the subscripts is caught by the surrounding
handler and mapped to a 502; but when both keys are present, the pydantic
constructor itself raises a `ValidationError`: `models.CompatibilityFactor`
requires a field named `explanation` and the call supplies `indicator`
instead.  That `ValidationError` is not in the `except (KeyError, TypeError)`
clause, so it escapes uncaught.  Consequently this function never returns
factors. -/
def buildFactors : List Json → Except LLMError (List CompatibilityFactor)
  | [] => .ok []
  | f :: _ =>
      match pyGetItem f "label" with
      | .error _ =>
          .error (.http 502 "GitM8 analysis contains invalid factor data. Please try again.")
      | .ok _ =>
          match pyGetItem f "indicator" with
          | .error _ =>
              .error (.http 502 "GitM8 analysis contains invalid factor data. Please try again.")
          | .ok _ =>
              .error (.pyExc "ValidationError"
                "1 validation error for CompatibilityFactor: explanation Field required")

/-- The trailing `CompatibilityResponse(score=…, reasoning=…, …)` pydantic
validation (`clamp_score` coerces a string score, then checks 1–10;
`reasoning` needs length ≥ 10; exactly 4 factors).  Any failure is caught by
`except Exception` and mapped to a 502.  Dead code in practice: `buildFactors`
never succeeds on a non-empty list. -/
def validateResponse (score reasoning : Json)
    (factors : List CompatibilityFactor) : Except LLMError CompatibilityResponse :=
  let scoreInt : Option Int :=
    match score with
    | .num n => some n
    | .str s =>
        match parseIntLit s.toList with
        | some (n, rest) => if rest.isEmpty then some n else none
        | none => none
    | _ => none
  match scoreInt with
  | none =>
      .error (.http 502 "GitM8 analysis validation failed: score")
  | some n =>
      if ¬ (1 ≤ n ∧ n ≤ 10) then
        .error (.http 502 "GitM8 analysis validation failed: score")
      else
        match reasoning with
        | .str r =>
            if r.length < 10 then
              .error (.http 502 "GitM8 analysis validation failed: reasoning")
            else if ¬ factors.length = 4 then
              .error (.http 502 "GitM8 analysis validation failed: factors")
            else .ok ⟨n, r, factors⟩
        | _ => .error (.http 502 "GitM8 analysis validation failed: reasoning")

/-- The field checks and factor validation applied to the decoded JSON
value (`parse_compatibility_response` after `json.loads`). -/
def validateCompatibilityData (data : Json) : Except LLMError CompatibilityResponse :=
  match pyInJson "score" data with
  | .error e => .error e
  | .ok hasScore =>
    if ¬ hasScore then
      .error (.http 502 "GitM8 analysis is incomplete (missing score). Please try again.")
    else
      match pyInJson "reasoning" data with
      | .error e => .error e
      | .ok hasReasoning =>
        if ¬ hasReasoning then
          .error (.http 502 "GitM8 analysis is incomplete (missing reasoning). Please try again.")
        else
          match pyInJson "compatibility_factors" data with
          | .error e => .error e
          | .ok hasFactors =>
            if ¬ hasFactors then
              .error (.http 502 "GitM8 analysis is incomplete (missing factors). Please try again.")
            else
              match pyGetItem data "compatibility_factors" with
              | .error e => .error e
              | .ok factors_data =>
                match factors_data with
                | .arr fs =>
                    if ¬ fs.length = 4 then
                      .error (.http 502 "GitM8 analysis returned an unexpected format. Please try again.")
                    else
                      match buildFactors fs with
                      | .error e => .error e
                      | .ok factors =>
                          match pyGetItem data "score" with
                          | .error e => .error e
                          | .ok sc =>
                            match pyGetItem data "reasoning" with
                            | .error e => .error e
                            | .ok rs => validateResponse sc rs factors
                | _ =>
                    .error (.http 502 "GitM8 analysis returned an unexpected format. Please try again.")

/-- `parse_compatibility_response(raw_response)`: extract a JSON string,
decode it, and validate the decoded object. -/
def parse_compatibility_response (raw : String) :
    Except LLMError CompatibilityResponse :=
  match json_loads (extract_json_str raw) with
  | none =>
      .error (.http 502 "GitM8 received a malformed response from the analysis service. Please try again.")
  | some data => validateCompatibilityData data

theorem any_key_of_pyGet? {α : Type} {m : PyDict α} {k : String} {v : α}
    (h : pyGet? m k = some v) : m.any (fun kv => kv.1 = k) = true := by
  induction m with
  | nil => simp [pyGet?] at h
  | cons kv rest ih =>
    rw [pyGet?] at h
    by_cases he : kv.1 = k
    · simp [List.any_cons, he]
    · rw [if_neg he] at h
      simp [List.any_cons, ih h]

/-- A raw LLM response whose `compatibility_factors` has only three of the
four fixed labels (`Activity Heat` missing). -/
def cexRawC1 : String :=
  "\x7b\"score\": 7, \"reasoning\": \"Complementary skills all around.\", \"compatibility_factors\": [\x7b\"label\": \"Shared Languages\", \"indicator\": \"Both use Python.\"\x7d, \x7b\"label\": \"Project Sizes\", \"indicator\": \"Similar scale.\"\x7d, \x7b\"label\": \"Contribution Activity\", \"indicator\": \"Both active.\"\x7d]\x7d"

/-- C1 counterexample: a response in which the `Activity Heat` label is
missing (three factors instead of four) is rejected by
`parse_compatibility_response` with a 502 "unexpected format" error — it is
not accepted with a synthesized placeholder factor. -/
theorem parse_no_synthesis_counterexample :
    parse_compatibility_response cexRawC1
      = .error (.http 502
          "GitM8 analysis returned an unexpected format. Please try again.") :=
  rfl

/-- C1 (amended): `parse_compatibility_response` never synthesizes missing
factors: whenever the extracted JSON is an object carrying `score`,
`reasoning` and a `compatibility_factors` list whose length is not 4, the
response is rejected with the 502 "unexpected format" error (labels are
never inspected). -/
theorem parse_rejects_wrong_factor_count (raw : String)
    (fields : List (String × Json)) (fs : List Json)
    (hload : json_loads (extract_json_str raw) = some (.obj fields))
    (hscore : fields.any (fun kv => kv.1 = "score") = true)
    (hreason : fields.any (fun kv => kv.1 = "reasoning") = true)
    (hfacts : pyGet? fields "compatibility_factors" = some (.arr fs))
    (hlen : ¬ fs.length = 4) :
    parse_compatibility_response raw
      = .error (.http 502
          "GitM8 analysis returned an unexpected format. Please try again.") := by
  have hfactsAny : fields.any (fun kv => kv.1 = "compatibility_factors") = true :=
    any_key_of_pyGet? hfacts
  rw [parse_compatibility_response, hload]
  dsimp only
  rw [validateCompatibilityData]
  simp only [pyInJson, pyGetItem, hscore, hreason, hfactsAny, hfacts]
  simp [hlen]

/-- A concrete response with an empty factor list, instantiating the amended
rejection property. -/
def witRawC1 : String :=
  "\x7b\"score\": 1, \"reasoning\": \"abc\", \"compatibility_factors\": []\x7d"

/-- Witness for the amended no-synthesis property at `witRawC1` (zero
factors): the parser rejects it with the 502 "unexpected format" error. -/
theorem parse_rejects_wrong_factor_count_witness :
    parse_compatibility_response witRawC1
      = .error (.http 502
          "GitM8 analysis returned an unexpected format. Please try again.") :=
  parse_rejects_wrong_factor_count witRawC1
    [("score", .num 1), ("reasoning", .str "abc"),
     ("compatibility_factors", .arr [])]
    [] rfl rfl rfl rfl (by decide)

/-- A raw LLM response that satisfies the documented response schema: score
in range, long enough reasoning, and exactly the four fixed factor labels,
each with its `indicator` text (the key the prompt template requests). -/
def llmGoodBody : String :=
  "\x7b\"score\": 7, \"reasoning\": \"Complementary skills all around.\", \"compatibility_factors\": [\x7b\"label\": \"Shared Languages\", \"indicator\": \"Both use Python.\"\x7d, \x7b\"label\": \"Project Sizes\", \"indicator\": \"Similar scale.\"\x7d, \x7b\"label\": \"Contribution Activity\", \"indicator\": \"Both active.\"\x7d, \x7b\"label\": \"Activity Heat\", \"indicator\": \"Steady cadence.\"\x7d]\x7d"

/-- A text containing a bare JSON object before a fenced block, to exhibit
the fenced-first extraction priority. -/
def cascadeFencedInput : String :=
  "noise \x7b\"a\": 1\x7d mid ```json \x7b\"x\": 2\x7d ``` tail"

/-- A text containing only a bare JSON object, to exhibit the second stage
of the extraction cascade. -/
def cascadeBareInput : String := "pre \x7b\"a\": 1\x7d post"

/-- C9: evaluation of the parser at a schema-conforming body.  The fenced
wrapping is extracted away and both the wrapped and the unwrapped body get
the identical outcome — but that outcome is an uncaught pydantic
`ValidationError`, not a validated result: `models.CompatibilityFactor`
requires a field named `explanation` while the parser passes the value under
`indicator`, so no response is ever successfully validated.  The last three
conjuncts exhibit the extraction cascade (fenced block first, then bare
object, then whole stripped text). -/
theorem parse_valid_body_not_validated :
    (parse_compatibility_response llmGoodBody
        = .error (.pyExc "ValidationError"
            "1 validation error for CompatibilityFactor: explanation Field required")) ∧
    (parse_compatibility_response ("```json\n" ++ llmGoodBody ++ "\n```")
        = parse_compatibility_response llmGoodBody) ∧
    (extract_json_str ("```json\n" ++ llmGoodBody ++ "\n```") = llmGoodBody) ∧
    (extract_json_str cascadeFencedInput = "\x7b\"x\": 2\x7d") ∧
    (extract_json_str cascadeBareInput = "\x7b\"a\": 1\x7d") ∧
    (extract_json_str "   plain text   " = "plain text") :=
  ⟨rfl, rfl, rfl, rfl, rfl, rfl⟩

/-! ## LLM gateway retry loop (`AsyncGeminiClient.generate`)

The environment is the response to each attempt (indexed from 0).  The model
returns the outcome, the list of back-off sleeps performed (in time-units,
`INITIAL_RETRY_DELAY = 1`, doubling, capped at `MAX_RETRY_DELAY = 8`), and
the number of attempts made. -/

/-- `MAX_RETRIES` (llm_service.py). -/
def MAX_RETRIES : Nat := 3

/-- `INITIAL_RETRY_DELAY` in time-units (llm_service.py). -/
def INITIAL_RETRY_DELAY : Nat := 1

/-- `MAX_RETRY_DELAY` in time-units (llm_service.py). -/
def MAX_RETRY_DELAY : Nat := 8

/-- The response of the Gemini endpoint to one attempt: an HTTP status with
a body, or a network-level error (`aiohttp.ClientError`). -/
inductive GemResp where
  | http (status : Nat) (body : String)
  | netError (msg : String)

/-- The observable behaviour of one `generate` call. -/
structure GenResult where
  outcome : Except LLMError Json
  sleeps : List Nat
  attempts : Nat

/-- `response.status in (429, 500, 502, 503, 504)`. -/
def retryableStatus (s : Nat) : Bool :=
  s = 429 ∨ s = 500 ∨ s = 502 ∨ s = 503 ∨ s = 504

/-- The `HTTPException` recorded for a retryable HTTP status. -/
def serviceUnavailableExc : LLMError :=
  .http 503 "GitM8 analysis service is temporarily unavailable. Please try again in a moment."

/-- The `HTTPException` recorded for a network-level error. -/
def networkExc : LLMError :=
  .http 503 "GitM8 couldn't reach the analysis service. Please check your connection and try again."

/-- `data.get(k, default)` on a JSON value; `AttributeError` on non-dicts. -/
def pyGetAttr (j : Json) (k : String) (d : Json) : Except LLMError Json :=
  match j with
  | .obj fields => .ok ((pyGet? fields k).getD d)
  | _ => .error (.pyExc "AttributeError" "object has no attribute get")

/-- Python truthiness of a JSON value (`if not x`). -/
def pyFalsy : Json → Bool
  | .null => true
  | .bool b => !b
  | .num n => n = 0
  | .str s => s.isEmpty
  | .arr l => l.isEmpty
  | .obj l => l.isEmpty

/-- `x[0]` on a JSON value (only list indexing is exercised by the code's
reachable paths; other indexable types are approximated by a `TypeError`). -/
def pyIndex0 : Json → Except LLMError Json
  | .arr (x :: _) => .ok x
  | .arr [] => .error (.pyExc "IndexError" "list index out of range")
  | _ => .error (.pyExc "TypeError" "object is not subscriptable")

/-- The HTTP-200 branch of `generate`: decode the body, require candidates
with content parts, reject `MAX_TOKENS` truncation, and return the first
part's text. -/
def processBody (raw : String) : Except LLMError Json :=
  match json_loads raw with
  | none =>
      .error (.http 502 "GitM8 received an invalid response from the analysis service. Please try again.")
  | some data =>
    match pyGetAttr data "candidates" (.arr []) with
    | .error e => .error e
    | .ok candidates =>
      if pyFalsy candidates then
        .error (.http 502 "GitM8 analysis service returned an empty response. Please try again.")
      else
        match pyIndex0 candidates with
        | .error e => .error e
        | .ok c0 =>
          match pyGetAttr c0 "content" (.obj []) with
          | .error e => .error e
          | .ok content =>
            match pyGetAttr content "parts" (.arr []) with
            | .error e => .error e
            | .ok parts =>
              if pyFalsy parts then
                .error (.http 502 "GitM8 analysis service returned an incomplete response. Please try again.")
              else
                match pyGetAttr c0 "finishReason" (.str "") with
                | .error e => .error e
                | .ok fr =>
                  match fr with
                  | .str frs =>
                      if frs = "MAX_TOKENS" then
                        .error (.http 502 "GitM8 analysis was too complex and exceeded limits. Please try with fewer users.")
                      else
                        match pyIndex0 parts with
                        | .error e => .error e
                        | .ok p0 => pyGetAttr p0 "text" (.str "")
                  | _ =>
                      match pyIndex0 parts with
                      | .error e => .error e
                      | .ok p0 => pyGetAttr p0 "text" (.str "")

/-- The retry loop of `generate`.  `fuel` is the number of remaining loop
iterations (`generate` starts it at `maxR`), `i` the 0-based attempt index,
`delay` the current back-off, `lastExc` the recorded last exception and
`sleeps` the sleeps performed so far.  A retryable status or network error
sleeps and retries while `i < maxR - 1`; any other non-200 status raises a
502 immediately; exhaustion raises the recorded exception (or, when the loop
never ran, the generic after-multiple-attempts 503). -/
def generateLoop (resp : Nat → GemResp) (maxR : Nat) :
    Nat → Nat → Nat → Option LLMError → List Nat → GenResult
  | 0, i, _, lastExc, sleeps =>
      { outcome := .error (lastExc.getD (.http 503
          "GitM8 analysis service is temporarily unavailable after multiple attempts. Please try again later."))
        sleeps := sleeps, attempts := i }
  | Nat.succ fuel, i, delay, _lastExc, sleeps =>
      match resp i with
      | .http s body =>
          if s = 200 then
            { outcome := processBody body, sleeps := sleeps, attempts := i + 1 }
          else if retryableStatus s then
            if i + 1 < maxR then
              generateLoop resp maxR fuel (i + 1) (min (delay * 2) MAX_RETRY_DELAY)
                (some serviceUnavailableExc) (sleeps ++ [delay])
            else
              { outcome := .error serviceUnavailableExc, sleeps := sleeps
                attempts := i + 1 }
          else
            { outcome := .error (.http 502
                ("GitM8 analysis service encountered an error (code: "
                  ++ toString s ++ "). Please try again."))
              sleeps := sleeps, attempts := i + 1 }
      | .netError _ =>
          if i + 1 < maxR then
            generateLoop resp maxR fuel (i + 1) (min (delay * 2) MAX_RETRY_DELAY)
              (some networkExc) (sleeps ++ [delay])
          else
            { outcome := .error networkExc, sleeps := sleeps, attempts := i + 1 }

/-- `AsyncGeminiClient.generate(prompt, …, max_retries)`: missing API key
fails with a 500 before any attempt, otherwise run the retry loop. -/
def generate (resp : Nat → GemResp) (apiKeyConfigured : Bool) (maxR : Nat) :
    GenResult :=
  if ¬ apiKeyConfigured then
    { outcome := .error (.http 500
        "GitM8 analysis service is not configured. Please contact support.")
      sleeps := [], attempts := 0 }
  else generateLoop resp maxR maxR 0 INITIAL_RETRY_DELAY none []

/-- The exponential back-off schedule: `min (2 ^ i) 8` before the
`i+1`-st retry. -/
def backoffDelays (n : Nat) : List Nat :=
  (List.range n).map (fun i => min (2 ^ i) 8)

theorem generateLoop_attempts_le (resp : Nat → GemResp) (maxR : Nat) :
    ∀ fuel i delay lastExc sleeps,
      (generateLoop resp maxR fuel i delay lastExc sleeps).attempts
        ≤ i + fuel := by
  intro fuel
  induction fuel with
  | zero =>
    intro i delay lastExc sleeps
    simp [generateLoop]
  | succ fuel ih =>
    intro i delay lastExc sleeps
    rw [generateLoop]
    cases hresp : resp i with
    | http s body =>
      by_cases h200 : s = 200
      · simp only [if_pos h200]
        omega
      · simp only [if_neg h200]
        by_cases hr : retryableStatus s = true
        · simp only [hr, if_true]
          by_cases hi : i + 1 < maxR
          · simp only [if_pos hi]
            calc (generateLoop resp maxR fuel (i + 1)
                    (min (delay * 2) MAX_RETRY_DELAY)
                    (some serviceUnavailableExc) (sleeps ++ [delay])).attempts
                ≤ (i + 1) + fuel := ih (i + 1) _ _ _
              _ = i + (fuel + 1) := by omega
          · simp only [if_neg hi]
            omega
        · simp only [Bool.not_eq_true] at hr
          simp only [hr, Bool.false_eq_true, if_false]
          omega
    | netError msg =>
      by_cases hi : i + 1 < maxR
      · simp only [if_pos hi]
        calc (generateLoop resp maxR fuel (i + 1)
                (min (delay * 2) MAX_RETRY_DELAY)
                (some networkExc) (sleeps ++ [delay])).attempts
            ≤ (i + 1) + fuel := ih (i + 1) _ _ _
          _ = i + (fuel + 1) := by omega
      · simp only [if_neg hi]
        omega

theorem retryableStatus_ne_200 {s : Nat} (h : retryableStatus s = true) :
    ¬ s = 200 := by
  simp only [retryableStatus, decide_eq_true_eq] at h
  omega

theorem backoff_step (i : Nat) :
    min (min (2 ^ i) 8 * 2) MAX_RETRY_DELAY = min (2 ^ (i + 1)) 8 := by
  rw [MAX_RETRY_DELAY]
  rcases le_or_lt (2 ^ i) 8 with h | h
  · rw [min_eq_left h, pow_succ]
  · rw [min_eq_right (le_of_lt h)]
    have h2 : 8 ≤ 2 ^ (i + 1) := by
      rw [pow_succ]
      omega
    omega

theorem generateLoop_all_retryable (resp : Nat → GemResp) (maxR : Nat)
    (hall : ∀ j, j < maxR →
      ∃ s b, resp j = .http s b ∧ retryableStatus s = true) :
    ∀ fuel i lastExc sleeps, fuel = maxR - i → i < maxR →
      generateLoop resp maxR fuel i (min (2 ^ i) 8) lastExc sleeps
        = { outcome := .error serviceUnavailableExc
            sleeps := sleeps
              ++ (List.range' i (maxR - 1 - i)).map (fun j => min (2 ^ j) 8)
            attempts := maxR } := by
  intro fuel
  induction fuel with
  | zero =>
    intro i lastExc sleeps hfi hi
    omega
  | succ fuel ih =>
    intro i lastExc sleeps hfi hi
    obtain ⟨s, b, hresp, hretry⟩ := hall i hi
    have h200 : ¬ s = 200 := retryableStatus_ne_200 hretry
    rw [generateLoop, hresp]
    simp only [if_neg h200, hretry, if_true]
    by_cases hlt : i + 1 < maxR
    · rw [if_pos hlt, backoff_step,
        ih (i + 1) (some serviceUnavailableExc) (sleeps ++ [min (2 ^ i) 8])
          (by omega) hlt]
      have hrange : List.range' i (maxR - 1 - i)
          = i :: List.range' (i + 1) (maxR - 1 - (i + 1)) := by
        have : maxR - 1 - i = (maxR - 1 - (i + 1)) + 1 := by omega
        rw [this, List.range'_succ]
      rw [hrange]
      simp
    · rw [if_neg hlt]
      have hieq : i + 1 = maxR := by omega
      have hz : maxR - 1 - i = 0 := by omega
      rw [hz]
      simp [hieq]

theorem generate_all_retryable (resp : Nat → GemResp) (maxR : Nat)
    (hmaxR : 1 ≤ maxR)
    (hall : ∀ j, j < maxR →
      ∃ s b, resp j = .http s b ∧ retryableStatus s = true) :
    generate resp true maxR
      = { outcome := .error serviceUnavailableExc
          sleeps := backoffDelays (maxR - 1), attempts := maxR } := by
  rw [generate, if_neg (by simp)]
  have h1 : INITIAL_RETRY_DELAY = min (2 ^ 0) 8 := rfl
  rw [h1, generateLoop_all_retryable resp maxR hall maxR 0 none []
    (by omega) (by omega)]
  rw [backoffDelays, List.range_eq_range']
  simp

/-- C4: `generate` makes at most 3 attempts; a non-retryable non-200 status
fails immediately with one attempt and no sleep; two consecutive 503s
followed by a 200 give exactly 3 attempts with the second attempt delayed 1
time-unit after the first (sleeps `[1, 2]`); when every attempt fails with a
retryable status, the call makes `maxR` attempts, sleeping the exponential
back-off schedule 1, 2, 4, 8, 8, … (doubling, capped at 8), and fails with
the 503 "temporarily unavailable" error; a network-level error is retried
exactly like a retryable status, with the first retry after a 1-unit
sleep. -/
theorem generate_retry_spec (resp : Nat → GemResp) :
    ((generate resp true MAX_RETRIES).attempts ≤ 3) ∧
    (∀ s body, resp 0 = .http s body → ¬ s = 200 →
        retryableStatus s = false →
        generate resp true MAX_RETRIES
          = { outcome := .error (.http 502
                ("GitM8 analysis service encountered an error (code: "
                  ++ toString s ++ "). Please try again."))
              sleeps := [], attempts := 1 }) ∧
    (∀ b0 b1 body, resp 0 = .http 503 b0 → resp 1 = .http 503 b1 →
        resp 2 = .http 200 body →
        generate resp true MAX_RETRIES
          = { outcome := processBody body, sleeps := [1, 2], attempts := 3 }) ∧
    (∀ maxR, 1 ≤ maxR →
        (∀ j, j < maxR →
          ∃ s b, resp j = .http s b ∧ retryableStatus s = true) →
        generate resp true maxR
          = { outcome := .error serviceUnavailableExc
              sleeps := backoffDelays (maxR - 1), attempts := maxR }) ∧
    (∀ msg, resp 0 = .netError msg →
        generate resp true MAX_RETRIES
          = generateLoop resp MAX_RETRIES 2 1 2 (some networkExc) [1]) := by
  refine ⟨?_, ?_, ?_, fun maxR h1 hall => generate_all_retryable resp maxR h1 hall, ?_⟩
  · have h := generateLoop_attempts_le resp MAX_RETRIES MAX_RETRIES 0
      INITIAL_RETRY_DELAY none []
    rw [generate, if_neg (by simp)]
    simpa using h
  · intro s body hresp h200 hnr
    rw [generate, if_neg (by simp), MAX_RETRIES, generateLoop, hresp]
    simp [h200, hnr]
  · intro b0 b1 body h0 h1 h2
    rw [generate, if_neg (by simp), MAX_RETRIES, generateLoop, h0]
    norm_num [retryableStatus, INITIAL_RETRY_DELAY, MAX_RETRY_DELAY]
    rw [generateLoop, h1]
    norm_num [retryableStatus, MAX_RETRY_DELAY]
    rw [generateLoop, h2]
    simp
  · intro msg hresp
    rw [generate, if_neg (by simp), MAX_RETRIES, generateLoop, hresp]
    norm_num [INITIAL_RETRY_DELAY, MAX_RETRY_DELAY]

/-- A well-formed Gemini 200 body with one candidate and one text part. -/
def geminiGoodBody : String :=
  "\x7b\"candidates\": [\x7b\"content\": \x7b\"parts\": [\x7b\"text\": \"hello\"\x7d]\x7d, \"finishReason\": \"STOP\"\x7d]\x7d"

/-- The retry scenario environment: two 503 responses, then a good 200. -/
def respScenario : Nat → GemResp := fun i =>
  if i = 0 then .http 503 "busy"
  else if i = 1 then .http 503 "busy"
  else .http 200 geminiGoodBody

/-- An environment always answering 503. -/
def respAll503 : Nat → GemResp := fun _ => .http 503 "busy"

/-- Witness for the retry property: in the 503/503/200 scenario the gateway
makes exactly 3 attempts, sleeps 1 then 2 time-units and succeeds with the
extracted text; with every attempt failing 503 and a budget of 6 the sleep
schedule exhibits the doubling capped at 8. -/
theorem generate_retry_spec_witness :
    (generate respScenario true MAX_RETRIES).attempts = 3 ∧
    (generate respScenario true MAX_RETRIES).sleeps = [1, 2] ∧
    (generate respScenario true MAX_RETRIES).outcome = .ok (.str "hello") ∧
    (generate respAll503 true 6).sleeps = [1, 2, 4, 8, 8] ∧
    (generate respScenario true MAX_RETRIES
        = { outcome := processBody geminiGoodBody, sleeps := [1, 2]
            attempts := 3 }) :=
  ⟨rfl, rfl, rfl, rfl,
    (generate_retry_spec respScenario).2.2.1 "busy" "busy" geminiGoodBody
      rfl rfl rfl⟩

end GitM8
